import Mathlib

/-!
# GameObject lifecycle and component management (aladdin/core/GameObject.cpp)

A shallow embedding of `ala::GameObject`: the object's fields become a record,
each member function becomes a function on that record (or on a `World` that
also holds what the external collaborators can observe), and `ALA_ASSERT`
becomes an explicit fault outcome that carries the state at the point of
failure.
-/

namespace Aladdin

/-! ## Data model -/

/-- A raw pointer (`GameObjectComponent*`, `Transform*`, `Scene*`), by address. -/
abbrev Ptr := Nat

/-- The null pointer. -/
def NULL : Ptr := 0

/-- The `float delta` of `update`/`updatePhysics`; it is only forwarded to the
components, never computed on, so its bit pattern stands for it. -/
abbrev Delta := Nat

/-- The `const CollisionInfo&` of the collision hooks; only forwarded. -/
abbrev CollisionInfo := Nat

/-- Modelled from the spec: the `Initializable` and `Releasable` base classes
(line 11) are not in GameObject.cpp. The spec gives the lifecycle status as one
of these five values, reached in this order. -/
inductive Status where
  | Uninitialized
  | Initializing
  | Initialized
  | Releasing
  | Released
  deriving DecidableEq, Repr

/-- The fields of `ala::GameObject` that GameObject.cpp reads or writes. The
messenger is owned and never reassigned, so it has no field here. -/
structure GameObject where
  id : Nat
  name : String
  layer : String
  parentScene : Ptr
  active : Bool
  selfInitialize : Bool
  toReleaseInNextFrame : Bool
  componentsInLock : Bool
  status : Status
  components : List Ptr
  transform : Ptr
  componentsToAddInNextFrame : List Ptr
  componentsToRemoveInNextFrame : List Ptr
  deriving DecidableEq, Repr

/-- The two ways a member function can end. -/
inductive Fault where
  | assertion
  | hookFailure
  deriving DecidableEq, Repr

/-- How a call ends: it returns normally with the new state, or it stops at a
fault with the state reached at that point. -/
inductive Outcome (σ : Type) where
  | ok (s : σ)
  | fault (f : Fault) (s : σ)
  deriving DecidableEq, Repr

/-- Sequencing: run `k` on the state of a normal return, stop at a fault. -/
def Outcome.andThen {σ : Type} (r : Outcome σ) (k : σ → Outcome σ) : Outcome σ :=
  match r with
  | .ok s => k s
  | .fault f s => .fault f s

/-- The state an outcome carries. -/
def Outcome.state {σ : Type} : Outcome σ → σ
  | .ok s => s
  | .fault _ s => s

/-- Whether the call returned normally. -/
def Outcome.isOk {σ : Type} : Outcome σ → Bool
  | .ok _ => true
  | .fault _ _ => false

/-- What GameObject.cpp takes from the component classes without defining it:
`ALA_IS_INSTANCE_OF(c, Transform)` and `c->getName()`. -/
structure Env where
  isTransform : Ptr → Bool
  getName : Ptr → String

/-! ## Initializable / Releasable -/

/-- Modelled from the spec: `Initializable::isInitialized` is not in the source
file. The flag belongs to `Initializable`, `release()` requires it (line 257)
and only calls `Releasable` setters, and the destructor (lines 68-71) expects
`isReleased()` of an object that `isInitialized()`: it stays true in the
Releasing and Released states. -/
def GameObject.isInitialized (o : GameObject) : Bool :=
  o.status == .Initialized || o.status == .Releasing || o.status == .Released

/-- Modelled from the spec: `Initializable::isInitializing`. -/
def GameObject.isInitializing (o : GameObject) : Bool :=
  o.status == .Initializing

/-- Modelled from the spec: `Releasable::isReleasing`. -/
def GameObject.isReleasing (o : GameObject) : Bool :=
  o.status == .Releasing

/-- Modelled from the spec: `Releasable::isReleased`. -/
def GameObject.isReleased (o : GameObject) : Bool :=
  o.status == .Released

/-- Modelled from the spec: `Initializable::setToInitializing`. -/
def GameObject.setToInitializing (o : GameObject) : GameObject :=
  { o with status := .Initializing }

/-- Modelled from the spec: `Initializable::setToInitialized`. -/
def GameObject.setToInitialized (o : GameObject) : GameObject :=
  { o with status := .Initialized }

/-- Modelled from the spec: `Releasable::setToReleasing`. -/
def GameObject.setToReleasing (o : GameObject) : GameObject :=
  { o with status := .Releasing }

/-- Modelled from the spec: `Releasable::setToReleased`. -/
def GameObject.setToReleased (o : GameObject) : GameObject :=
  { o with status := .Released }

/-! ## StdHelper -/

/-- Modelled from the spec: `StdHelper::vectorContain` is not in the source
file; membership by pointer equality. -/
def vectorContain (vec : List Ptr) (val : Ptr) : Bool :=
  vec.contains val

/-- Modelled from the spec: `StdHelper::vectorErase` is not in the source file.
The spec removes "by identity from the sequence", after which the component "is
absent" and the order of the others is kept: every element equal to `val` goes. -/
def vectorErase (vec : List Ptr) (val : Ptr) : List Ptr :=
  vec.filter (fun x => x != val)

/-! ## Simple accessors (lines 89-105, 392-402, 439-446) -/

/-- `GameObject::isActive`. -/
def GameObject.isActive (o : GameObject) : Bool := o.active

/-- `GameObject::setActive`. -/
def GameObject.setActive (o : GameObject) (val : Bool) : GameObject :=
  { o with active := val }

/-- `GameObject::isSelfInitialize`. -/
def GameObject.isSelfInitialize (o : GameObject) : Bool := o.selfInitialize

/-- `GameObject::getAllComponents()`. -/
def GameObject.getAllComponents (o : GameObject) : List Ptr := o.components

/-- `GameObject::getTransform`. -/
def GameObject.getTransform (o : GameObject) : Ptr := o.transform

/-- `GameObject::lockComponents`. -/
def GameObject.lockComponents (o : GameObject) : GameObject :=
  { o with componentsInLock := true }

/-- `GameObject::unlockComponents`. -/
def GameObject.unlockComponents (o : GameObject) : GameObject :=
  { o with componentsInLock := false }

/-! ## Component collection management (lines 331-369, 416-433) -/

/-- `GameObject::doRemoveComponent`. -/
def GameObject.doRemoveComponent (o : GameObject) (component : Ptr) : GameObject :=
  { o with components := vectorErase o.components component }

/-- `GameObject::doAddComponent`. A Transform other than the current one
replaces it at the front, which is asserted to happen before initialization;
anything else goes to the back. -/
def GameObject.doAddComponent (env : Env) (o : GameObject) (component : Ptr) :
    Outcome GameObject :=
  if component != o.transform && env.isTransform component then
    if !(!o.isInitializing && !o.isInitialized && !o.isReleasing && !o.isReleased) then
      .fault .assertion o
    else
      let o1 := o.doRemoveComponent o.transform
      let o2 := { o1 with transform := component }
      .ok { o2 with components := o2.transform :: o2.components }
  else
    .ok { o with components := o.components ++ [component] }

/-- `GameObject::addComponentInNextFrame`. -/
def GameObject.addComponentInNextFrame (o : GameObject) (component : Ptr) : GameObject :=
  if o.isReleasing || o.isReleased then o
  else if component == NULL then o
  else if vectorContain o.components component then o
  else { o with componentsToAddInNextFrame := o.componentsToAddInNextFrame ++ [component] }

/-- `GameObject::addComponent`. -/
def GameObject.addComponent (env : Env) (o : GameObject) (component : Ptr) :
    Outcome GameObject :=
  if o.componentsInLock then .ok (o.addComponentInNextFrame component)
  else if o.isReleasing || o.isReleased then .ok o
  else if component == NULL then .ok o
  else if vectorContain o.components component then .ok o
  else o.doAddComponent env component

/-- `GameObject::removeComponentInNextFrame`. -/
def GameObject.removeComponentInNextFrame (o : GameObject) (component : Ptr) : GameObject :=
  if o.isReleasing || o.isReleased then o
  else if component == NULL then o
  else { o with componentsToRemoveInNextFrame := o.componentsToRemoveInNextFrame ++ [component] }

/-- `GameObject::removeComponent`. -/
def GameObject.removeComponent (o : GameObject) (component : Ptr) : GameObject :=
  if o.componentsInLock then o.removeComponentInNextFrame component
  else if o.isReleasing || o.isReleased then o
  else if component == NULL then o
  else o.doRemoveComponent component

/-- The loop of `getComponent(name)` (lines 372-376): return at the first
component that is not null and has that name. -/
def getComponentLoop (env : Env) (name : String) : List Ptr → Ptr
  | [] => NULL
  | c :: rest =>
    if c != NULL && env.getName c == name then c else getComponentLoop env name rest

/-- `GameObject::getComponent(name)`. -/
def GameObject.getComponent (env : Env) (o : GameObject) (name : String) : Ptr :=
  getComponentLoop env name o.components

/-- The loop of `getAllComponents(name)` (lines 383-387), `ret` being the vector
built so far. -/
def getAllComponentsLoop (env : Env) (name : String) : List Ptr → List Ptr → List Ptr
  | [], ret => ret
  | c :: rest, ret =>
    if c != NULL && env.getName c == name then getAllComponentsLoop env name rest (ret ++ [c])
    else getAllComponentsLoop env name rest ret

/-- `GameObject::getAllComponents(name)`. -/
def GameObject.getAllComponentsNamed (env : Env) (o : GameObject) (name : String) :
    List Ptr :=
  getAllComponentsLoop env name o.components []

/-- `GameObject::releaseInNextFrame`. -/
def GameObject.releaseInNextFrame (o : GameObject) : Outcome GameObject :=
  if !(o.isInitialized && !o.isReleasing && !o.isReleased) then .fault .assertion o
  else .ok { o with toReleaseInNextFrame := true }

/-- The first loop of `updateAddAndRemoveComponentInNextFrame` (lines 405-407). -/
def doAddComponents (env : Env) : List Ptr → GameObject → Outcome GameObject
  | [], o => .ok o
  | c :: rest, o => (o.doAddComponent env c).andThen (doAddComponents env rest)

/-- `GameObject::updateAddAndRemoveComponentInNextFrame`: pending adds, then
pending removes, each queue cleared after its loop. -/
def GameObject.updateAddAndRemoveComponentInNextFrame (env : Env) (o : GameObject) :
    Outcome GameObject :=
  (doAddComponents env o.componentsToAddInNextFrame o).andThen fun o1 =>
    let o2 := { o1 with componentsToAddInNextFrame := [] }
    let o3 := o2.componentsToRemoveInNextFrame.foldl GameObject.doRemoveComponent o2
    .ok { o3 with componentsToRemoveInNextFrame := [] }

/-! ## Calls out of the object -/

/-- A hook of the `GameObjectComponent` interface with the argument it gets;
`initializeHook` is the component's `initialize()`. -/
inductive Hook where
  | initializeHook
  | updatePhysics (delta : Delta)
  | update (delta : Delta)
  | onCollisionEnter (collisionInfo : CollisionInfo)
  | onCollisionStay (collisionInfo : CollisionInfo)
  | onCollisionExit (collisionInfo : CollisionInfo)
  | onTriggerEnter (collisionInfo : CollisionInfo)
  | onTriggerStay (collisionInfo : CollisionInfo)
  | onTriggerExit (collisionInfo : CollisionInfo)
  | render
  | release
  | resolveLockedTasks
  deriving DecidableEq, Repr

/-- A call from GameObject.cpp into code it does not define: a component hook,
the messenger, the parent scene, the `GameManager` registry, or the virtual
`onResolveLockedTasks` extension point. -/
inductive ExternalCall where
  | component (c : Ptr) (hook : Hook)
  | messengerRelease
  | sceneRemoveGameObject (scene : Ptr)
  | gameManagerDetach
  | onResolveLockedTasks
  deriving DecidableEq, Repr

/-- The component a call is made on, if it is a component hook. -/
def ExternalCall.receiver : ExternalCall → Option Ptr
  | .component c _ => some c
  | _ => none

/-- An external call with what the callee can see of the object when called. -/
structure Observed where
  call : ExternalCall
  status : Status
  componentsInLock : Bool
  deriving DecidableEq, Repr

/-- The object, the components whose own `isInitialized()` is true, and the
external calls made so far, oldest first. -/
structure World where
  obj : GameObject
  initializedComponents : List Ptr
  trace : List Observed
  deriving DecidableEq, Repr

/-- `component->isInitialized()`. -/
def World.componentIsInitialized (w : World) (c : Ptr) : Bool :=
  w.initializedComponents.contains c

/-- The behaviour of the external code: what a call does to the world, the
object included, since a hook holds a pointer to its object. -/
abbrev Hooks := ExternalCall → World → Outcome World

/-- The record of a call made in world `w`. -/
def World.observe (w : World) (call : ExternalCall) : Observed :=
  { call := call, status := w.obj.status, componentsInLock := w.obj.componentsInLock }

/-- Make an external call: record it, then let the callee run. -/
def external (h : Hooks) (call : ExternalCall) (w : World) : Outcome World :=
  h call { w with trace := w.trace ++ [w.observe call] }

/-- Carry an outcome on the object over to the world. -/
def World.withObj (w : World) : Outcome GameObject → Outcome World
  | .ok o => .ok { w with obj := o }
  | .fault f o => .fault f { w with obj := o }

/-- The loop `for (auto component : _components) component->hook(arg);`, over
the sequence as it is when the loop starts. -/
def forEachComponent (h : Hooks) (hook : Hook) : List Ptr → World → Outcome World
  | [], w => .ok w
  | c :: rest, w => (external h (.component c hook) w).andThen (forEachComponent h hook rest)

/-- The loop of `initialize()` (lines 129-133): only components whose
`isInitialized()` is false when the loop reaches them are initialized. -/
def initializeComponents (h : Hooks) : List Ptr → World → Outcome World
  | [], w => .ok w
  | c :: rest, w =>
    if !w.componentIsInitialized c then
      (external h (.component c Hook.initializeHook) w).andThen (initializeComponents h rest)
    else initializeComponents h rest w

/-! ## Events (lines 120-325) -/

/-- `GameObject::initialize`. -/
def GameObject.initialize (h : Hooks) (w : World) : Outcome World :=
  if !(!w.obj.isInitialized && !w.obj.isInitializing) then .fault .assertion w
  else
    let w1 := { w with obj := w.obj.setToInitializing }
    (initializeComponents h w1.obj.components w1).andThen fun w2 =>
      .ok { w2 with obj := (w2.obj.setToInitialized).setActive true }

/-- The body shared by the dispatch functions after their guard:
`lockComponents()`, the loop over `_components`, `unlockComponents()`. -/
def lockedCascade (h : Hooks) (hook : Hook) (w : World) : Outcome World :=
  let w1 := { w with obj := w.obj.lockComponents }
  (forEachComponent h hook w1.obj.components w1).andThen fun w2 =>
    .ok { w2 with obj := w2.obj.unlockComponents }

/-- `GameObject::updatePhysics`. -/
def GameObject.updatePhysics (h : Hooks) (delta : Delta) (w : World) : Outcome World :=
  if w.obj.isReleasing || w.obj.isReleased || !w.obj.isInitialized || !w.obj.isActive then .ok w
  else lockedCascade h (.updatePhysics delta) w

/-- `GameObject::update`. -/
def GameObject.update (h : Hooks) (delta : Delta) (w : World) : Outcome World :=
  if w.obj.isReleasing || w.obj.isReleased || !w.obj.isInitialized || !w.obj.isActive then .ok w
  else lockedCascade h (.update delta) w

/-- `GameObject::onCollisionEnter`. -/
def GameObject.onCollisionEnter (h : Hooks) (collisionInfo : CollisionInfo) (w : World) :
    Outcome World :=
  if w.obj.isReleasing || w.obj.isReleased || !w.obj.isInitialized || !w.obj.isActive then .ok w
  else lockedCascade h (.onCollisionEnter collisionInfo) w

/-- `GameObject::onCollisionStay`. -/
def GameObject.onCollisionStay (h : Hooks) (collisionInfo : CollisionInfo) (w : World) :
    Outcome World :=
  if w.obj.isReleasing || w.obj.isReleased || !w.obj.isInitialized || !w.obj.isActive then .ok w
  else lockedCascade h (.onCollisionStay collisionInfo) w

/-- `GameObject::onCollisionExit`. -/
def GameObject.onCollisionExit (h : Hooks) (collisionInfo : CollisionInfo) (w : World) :
    Outcome World :=
  if w.obj.isReleasing || w.obj.isReleased || !w.obj.isInitialized || !w.obj.isActive then .ok w
  else lockedCascade h (.onCollisionExit collisionInfo) w

/-- `GameObject::onTriggerEnter`. -/
def GameObject.onTriggerEnter (h : Hooks) (collisionInfo : CollisionInfo) (w : World) :
    Outcome World :=
  if w.obj.isReleasing || w.obj.isReleased || !w.obj.isInitialized || !w.obj.isActive then .ok w
  else lockedCascade h (.onTriggerEnter collisionInfo) w

/-- `GameObject::onTriggerStay`. -/
def GameObject.onTriggerStay (h : Hooks) (collisionInfo : CollisionInfo) (w : World) :
    Outcome World :=
  if w.obj.isReleasing || w.obj.isReleased || !w.obj.isInitialized || !w.obj.isActive then .ok w
  else lockedCascade h (.onTriggerStay collisionInfo) w

/-- `GameObject::onTriggerExit`. -/
def GameObject.onTriggerExit (h : Hooks) (collisionInfo : CollisionInfo) (w : World) :
    Outcome World :=
  if w.obj.isReleasing || w.obj.isReleased || !w.obj.isInitialized || !w.obj.isActive then .ok w
  else lockedCascade h (.onTriggerExit collisionInfo) w

/-- `GameObject::render`: the guard does not look at `isActive()`. -/
def GameObject.render (h : Hooks) (w : World) : Outcome World :=
  if w.obj.isReleasing || w.obj.isReleased || !w.obj.isInitialized then .ok w
  else lockedCascade h .render w

/-- `GameObject::release`. The closing `delete this` reclaims the storage and
has no counterpart on the logical state. -/
def GameObject.release (h : Hooks) (w : World) : Outcome World :=
  if w.obj.componentsInLock then w.withObj w.obj.releaseInNextFrame
  else if !(w.obj.isInitialized && !w.obj.isReleasing && !w.obj.isReleased) then
    .fault .assertion w
  else
    let w1 := { w with obj := w.obj.setToReleasing }
    (forEachComponent h .release w1.obj.components w1).andThen fun w2 =>
    (external h .messengerRelease w2).andThen fun w3 =>
    (if w3.obj.parentScene != NULL then
      external h (.sceneRemoveGameObject w3.obj.parentScene) w3
     else .ok w3).andThen fun w4 =>
    (external h .gameManagerDetach w4).andThen fun w5 =>
    .ok { w5 with obj := w5.obj.setToReleased }

/-- Lines 302-322 of `resolveLockedTasks`, after the lazy initialization. The
write `_toReleaseInNextFrame = false` (line 305) runs once `release()` has
returned, whether that call released the object or deferred again. -/
def resolveLockedTasksBody (env : Env) (h : Hooks) (w : World) : Outcome World :=
  if w.obj.toReleaseInNextFrame then
    ( GameObject.release h w).andThen fun w1 =>
      .ok { w1 with obj := { w1.obj with toReleaseInNextFrame := false } }
  else
    (w.withObj (w.obj.updateAddAndRemoveComponentInNextFrame env)).andThen fun w1 =>
    (external h .onResolveLockedTasks w1).andThen fun w2 =>
    lockedCascade h .resolveLockedTasks w2

/-- `GameObject::resolveLockedTasks`. -/
def GameObject.resolveLockedTasks (env : Env) (h : Hooks) (w : World) : Outcome World :=
  if w.obj.isReleasing || w.obj.isReleased then .ok w
  else if !w.obj.isInitialized then
    if w.obj.isSelfInitialize then
      ( GameObject.initialize h w).andThen (resolveLockedTasksBody env h)
    else .ok w
  else resolveLockedTasksBody env h w

/-! ## Assumptions on the external code, and sample data -/

/-- Hooks that return normally and do not call back into the object: a call
leaves the object and the trace as they are, and changes the initialization
status of no component but the one it is made on. -/
def Hooks.Passive (h : Hooks) : Prop :=
  ∀ (call : ExternalCall) (w : World), ∃ ics : List Ptr,
    h call w = .ok { w with initializedComponents := ics } ∧
    ∀ c : Ptr, call.receiver ≠ some c → ics.contains c = w.initializedComponents.contains c

/-- The outcome `r` is a normal return with object `o` and trace `tr` (and some
set of initialized components). -/
def Yields (r : Outcome World) (o : GameObject) (tr : List Observed) : Prop :=
  ∃ ics : List Ptr, r = .ok { obj := o, initializedComponents := ics, trace := tr }

/-- Sample hooks: `initialize` marks its component initialized, every other call
does nothing. -/
def markingHooks : Hooks := fun call w =>
  match call with
  | .component c Hook.initializeHook =>
    .ok { w with initializedComponents := c :: w.initializedComponents }
  | _ => .ok w

/-- Sample component types: addresses 1 and 9 are Transforms. -/
def sampleEnv : Env :=
  { isTransform := fun c => c == 1 || c == 9
    getName := fun c => if c == 1 || c == 9 then "Transform" else "Component" }

/-- A scene-rooted, uninitialized, unlocked object with components [T, A, B] at
addresses 1, 2, 3. -/
def sampleObject : GameObject :=
  { id := 7, name := "object", layer := "", parentScene := 100, active := false,
    selfInitialize := true, toReleaseInNextFrame := false, componentsInLock := false,
    status := .Uninitialized, components := [1, 2, 3], transform := 1,
    componentsToAddInNextFrame := [], componentsToRemoveInNextFrame := [] }

/-- A world around an object: no component initialized, nothing called yet. -/
def freshWorld (o : GameObject) : World :=
  { obj := o, initializedComponents := [], trace := [] }

/-- A call a hook makes back into its object. -/
inductive Request where
  | add (c : Ptr)
  | remove (c : Ptr)
  deriving DecidableEq, Repr

/-- The requests of a hook, made in order through `addComponent` and
`removeComponent`; a failed assertion ends the hook. -/
def applyRequests (env : Env) : List Request → GameObject → Outcome GameObject
  | [], o => .ok o
  | .add c :: rest, o => (o.addComponent env c).andThen (applyRequests env rest)
  | .remove c :: rest, o => applyRequests env rest (o.removeComponent c)

/-- Hooks that act on the object only through `addComponent` and
`removeComponent`: every call amounts to a list of such requests (and a change
of the components' own initialization status). -/
def Hooks.OnlyRequests (env : Env) (h : Hooks) : Prop :=
  ∀ (call : ExternalCall) (w : World), ∃ (reqs : List Request) (ics : List Ptr),
    h call w = World.withObj { w with initializedComponents := ics }
      (applyRequests env reqs w.obj)

/-- Hooks that do not call back into the object but may fail: a call either
returns or propagates a failure, the object and the trace being as they were. -/
def Hooks.MayFail (h : Hooks) : Prop :=
  ∀ (call : ExternalCall) (w : World), ∃ ics : List Ptr,
    h call w = .ok { w with initializedComponents := ics } ∨
    h call w = .fault .hookFailure { w with initializedComponents := ics }

/-- What a dispatch function owes an Initialized, active object: a normal
return, the hook called on every component of the sequence in order, each call
made under the lock, the lock clear on return and the live sequence as it was. -/
def CascadedUnderLock (w : World) (hook : Hook) (r : Outcome World) : Prop :=
  ∃ w' : World, r = .ok w' ∧
    w'.trace = w.trace ++
      w.obj.components.map (fun c => ⟨.component c hook, .Initialized, true⟩) ∧
    w'.obj.componentsInLock = false ∧
    w'.obj.getAllComponents = w.obj.getAllComponents

/-- The lock after a dispatch: clear after a normal return, still set when a
hook failure left the function. -/
def LockClearedOnlyOnReturn (r : Outcome World) : Prop :=
  (∀ w' : World, r = .ok w' → w'.obj.componentsInLock = false) ∧
  (∀ (f : Fault) (w' : World), r = .fault f w' →
    f = .hookFailure ∧ w'.obj.componentsInLock = true)

/-- Sample hooks: the `update` hooks of the components at 2 and 3 both ask their
object to add the component at 4; every other call does nothing. -/
def requestingHooks : Hooks := fun call w =>
  match call with
  | .component c (.update _) =>
    if c == 2 || c == 3 then w.withObj (w.obj.addComponent sampleEnv 4) else .ok w
  | _ => .ok w

/-- Sample hooks: the `update` hook of the component at 2 fails; every other
call does nothing. -/
def failingHooks : Hooks := fun call w =>
  match call with
  | .component c (.update _) => if c == 2 then .fault .hookFailure w else .ok w
  | _ => .ok w

/-- The sample object once initialized: Initialized, active, unlocked. -/
def readyObject : GameObject :=
  { sampleObject with status := .Initialized, active := true }

/-- The nine dispatch functions at given arguments, each with the hook it
cascades. -/
def dispatchTable (h : Hooks) (delta : Delta) (info : CollisionInfo) :
    List (Hook × (World → Outcome World)) :=
  [(.updatePhysics delta, GameObject.updatePhysics h delta),
   (.update delta, GameObject.update h delta),
   (.onCollisionEnter info, GameObject.onCollisionEnter h info),
   (.onCollisionStay info, GameObject.onCollisionStay h info),
   (.onCollisionExit info, GameObject.onCollisionExit h info),
   (.onTriggerEnter info, GameObject.onTriggerEnter h info),
   (.onTriggerStay info, GameObject.onTriggerStay h info),
   (.onTriggerExit info, GameObject.onTriggerExit h info),
   (.render, GameObject.render h)]

/-! ## Basic facts -/

theorem status_flags (o : GameObject) :
    (o.isReleasing = true ↔ o.status = .Releasing) ∧
    (o.isReleased = true ↔ o.status = .Released) ∧
    (o.isInitializing = true ↔ o.status = .Initializing) ∧
    (o.isInitialized = true ↔
      (o.status = .Initialized ∨ o.status = .Releasing ∨ o.status = .Released)) := by
  simp [GameObject.isReleasing, GameObject.isReleased, GameObject.isInitializing,
    GameObject.isInitialized, or_assoc]

theorem vectorContain_iff (vec : List Ptr) (val : Ptr) :
    vectorContain vec val = true ↔ val ∈ vec := by
  simp [vectorContain]

theorem vectorErase_not_mem (vec : List Ptr) (val : Ptr) : val ∉ vectorErase vec val := by
  simp [vectorErase]

theorem vectorErase_of_not_mem (vec : List Ptr) (val : Ptr) (h : val ∉ vec) :
    vectorErase vec val = vec := by
  unfold vectorErase
  rw [List.filter_eq_self]
  intro a ha
  have : a ≠ val := fun e => h (e ▸ ha)
  simpa using this

theorem mem_vectorErase (vec : List Ptr) (val x : Ptr) :
    x ∈ vectorErase vec val ↔ x ∈ vec ∧ x ≠ val := by
  simp [vectorErase]

/-! ## Component collection under lock, and benign requests -/

/-- C1: on a locked object that is neither Releasing nor Released, with a
non-null component, `removeComponent` only appends the component to the
pending-remove queue and `addComponent` only appends it to the pending-add queue
when it is not in the live sequence (and does nothing when it is); the live
sequence is the same after either call. -/
theorem locked_requests_are_queued (env : Env) (o : GameObject) (c : Ptr)
    (hlock : o.componentsInLock = true)
    (hrel : o.status ≠ .Releasing ∧ o.status ≠ .Released)
    (hc : c ≠ NULL) :
    o.removeComponent c =
        { o with componentsToRemoveInNextFrame := o.componentsToRemoveInNextFrame ++ [c] } ∧
      (o.removeComponent c).getAllComponents = o.getAllComponents ∧
      (c ∉ o.components →
        o.addComponent env c =
          .ok { o with componentsToAddInNextFrame := o.componentsToAddInNextFrame ++ [c] }) ∧
      (c ∈ o.components → o.addComponent env c = .ok o) ∧
      (o.addComponent env c).isOk = true ∧
      (o.addComponent env c).state.getAllComponents = o.getAllComponents := by
  obtain ⟨h1, h2⟩ := hrel
  have hremove : o.removeComponent c =
      { o with componentsToRemoveInNextFrame := o.componentsToRemoveInNextFrame ++ [c] } := by
    simp [GameObject.removeComponent, GameObject.removeComponentInNextFrame,
      GameObject.isReleasing, GameObject.isReleased, hlock, h1, h2, hc]
  have hnew : c ∉ o.components →
      o.addComponent env c =
        .ok { o with componentsToAddInNextFrame := o.componentsToAddInNextFrame ++ [c] } := by
    intro hm
    simp [GameObject.addComponent, GameObject.addComponentInNextFrame,
      GameObject.isReleasing, GameObject.isReleased, vectorContain, hlock, h1, h2, hc, hm]
  have hold : c ∈ o.components → o.addComponent env c = .ok o := by
    intro hm
    simp [GameObject.addComponent, GameObject.addComponentInNextFrame,
      GameObject.isReleasing, GameObject.isReleased, vectorContain, hlock, h1, h2, hc, hm]
  refine ⟨hremove, ?_, hnew, hold, ?_, ?_⟩
  · rw [hremove]; rfl
  · by_cases hm : c ∈ o.components
    · rw [hold hm]; rfl
    · rw [hnew hm]; rfl
  · by_cases hm : c ∈ o.components
    · rw [hold hm]; rfl
    · rw [hnew hm]; rfl

/-- C1 at a concrete input: the locked, initialized sample object and a new
component at address 4. -/
theorem locked_requests_are_queued_witness :
    ({ sampleObject with componentsInLock := true, status := .Initialized } :
        GameObject).removeComponent 4 =
      { sampleObject with componentsInLock := true, status := .Initialized,
                          componentsToRemoveInNextFrame := [4] } ∧
    ({ sampleObject with componentsInLock := true, status := .Initialized } :
        GameObject).addComponent sampleEnv 4 =
      .ok { sampleObject with componentsInLock := true, status := .Initialized,
                              componentsToAddInNextFrame := [4] } := by
  have h := locked_requests_are_queued sampleEnv
    { sampleObject with componentsInLock := true, status := .Initialized } 4
    rfl (by decide) (by decide)
  exact ⟨h.1, h.2.2.1 (by decide)⟩

/-- C9: in either lock state a null pointer is ignored by `addComponent` and
`removeComponent`, a component already in the live sequence is ignored by
`addComponent`, and a Releasing or Released object ignores both calls for every
component: the whole object state is returned unchanged. -/
theorem benign_requests_are_ignored (env : Env) (o : GameObject) (c : Ptr) :
    o.addComponent env NULL = .ok o ∧
      o.removeComponent NULL = o ∧
      (c ∈ o.components → o.addComponent env c = .ok o) ∧
      (o.status = .Releasing ∨ o.status = .Released →
        o.addComponent env c = .ok o ∧ o.removeComponent c = o) := by
  refine ⟨?_, ?_, ?_, ?_⟩
  · cases hl : o.componentsInLock <;>
      simp [GameObject.addComponent, GameObject.addComponentInNextFrame, hl]
  · cases hl : o.componentsInLock <;>
      simp [GameObject.removeComponent, GameObject.removeComponentInNextFrame, hl]
  · intro hm
    cases hl : o.componentsInLock <;>
      simp [GameObject.addComponent, GameObject.addComponentInNextFrame, vectorContain, hl, hm]
  · intro hs
    have hr : (o.isReleasing || o.isReleased) = true := by
      rcases hs with hs | hs <;> simp [GameObject.isReleasing, GameObject.isReleased, hs]
    constructor
    · cases hl : o.componentsInLock <;>
        simp [GameObject.addComponent, GameObject.addComponentInNextFrame, hl, hr]
    · cases hl : o.componentsInLock <;>
        simp [GameObject.removeComponent, GameObject.removeComponentInNextFrame, hl, hr]

/-- C9 at concrete inputs: a duplicate add on the unlocked sample object, and
add/remove of a new component on a locked, Released one. -/
theorem benign_requests_are_ignored_witness :
    sampleObject.addComponent sampleEnv 2 = .ok sampleObject ∧
    ({ sampleObject with componentsInLock := true, status := .Released } :
        GameObject).addComponent sampleEnv 4 =
      .ok { sampleObject with componentsInLock := true, status := .Released } ∧
    ({ sampleObject with componentsInLock := true, status := .Released } :
        GameObject).removeComponent 2 =
      { sampleObject with componentsInLock := true, status := .Released } :=
  ⟨(benign_requests_are_ignored sampleEnv sampleObject 2).2.2.1 (by decide),
   ((benign_requests_are_ignored sampleEnv
      { sampleObject with componentsInLock := true, status := .Released } 4).2.2.2
      (Or.inr rfl)).1,
   ((benign_requests_are_ignored sampleEnv
      { sampleObject with componentsInLock := true, status := .Released } 2).2.2.2
      (Or.inr rfl)).2⟩

/-! ## Replacing the transform before initialization -/

/-- C10: on an Uninitialized, unlocked object whose live sequence is the current
transform `T` followed by non-transform components `cs`, `addComponent` of a
non-null Transform `T'` that differs from `T` and is not in the sequence returns
normally with live sequence `T' :: cs` and `getTransform() = T'`: `T'` is at
index 0, `T` is gone, the length is the same, and `T'` is the only Transform in
the sequence. No other field changes. -/
theorem transform_replaced_at_front (env : Env) (o : GameObject) (T' : Ptr) (cs : List Ptr)
    (hU : o.status = .Uninitialized)
    (hlock : o.componentsInLock = false)
    (hlive : o.components = o.transform :: cs)
    (hT : env.isTransform o.transform = true)
    (hcs : ∀ c ∈ cs, env.isTransform c = false)
    (hT' : env.isTransform T' = true)
    (hnull : T' ≠ NULL)
    (hne : T' ≠ o.transform)
    (hnin : T' ∉ o.components) :
    ∃ o' : GameObject,
      o.addComponent env T' = .ok o' ∧
      o' = { o with components := T' :: cs, transform := T' } ∧
      o'.getAllComponents = T' :: cs ∧
      o'.getTransform = T' ∧
      o.transform ∉ o'.getAllComponents ∧
      o'.getAllComponents.length = o.getAllComponents.length ∧
      o'.getAllComponents.filter env.isTransform = [T'] := by
  have hTcs : o.transform ∉ cs := by
    intro hm
    have := hcs _ hm
    rw [hT] at this
    exact Bool.noConfusion this
  have herase : vectorErase o.components o.transform = cs := by
    rw [hlive]
    have h1 : vectorErase (o.transform :: cs) o.transform = vectorErase cs o.transform := by
      simp [vectorErase]
    rw [h1]
    exact vectorErase_of_not_mem cs o.transform hTcs
  have hfilter : cs.filter env.isTransform = [] := by
    rw [List.filter_eq_nil_iff]
    intro a ha
    simp [hcs a ha]
  refine ⟨{ o with components := T' :: cs, transform := T' }, ?_, rfl, rfl, rfl, ?_, ?_, ?_⟩
  · simp [GameObject.addComponent, GameObject.doAddComponent, GameObject.doRemoveComponent,
      GameObject.isReleasing, GameObject.isReleased, GameObject.isInitializing,
      GameObject.isInitialized, vectorContain, hlock, hU, hnull, hne, hnin, hT', herase]
  · simp only [GameObject.getAllComponents, List.mem_cons, not_or]
    exact ⟨fun e => hne e.symm, hTcs⟩
  · simp [GameObject.getAllComponents, hlive]
  · simp [GameObject.getAllComponents, List.filter_cons, hT', hfilter]

/-- C10 at a concrete input: the second Transform (address 9) replaces the first
on the sample object [T, A, B]. -/
theorem transform_replaced_at_front_witness :
    sampleObject.addComponent sampleEnv 9 =
      .ok { sampleObject with components := [9, 2, 3], transform := 9 } := by
  obtain ⟨o', h1, h2, -⟩ := transform_replaced_at_front sampleEnv sampleObject 9 [2, 3]
    rfl rfl rfl rfl (by decide) rfl (by decide) (by decide) (by decide)
  rw [h1, h2]

/-! ## Guards of the lifecycle and dispatch functions -/

/-- C4: `initialize()` on an object whose status is anything but Uninitialized
stops at the assertion with the world as it was (no hook called, no field
changed); and whenever `initialize()` has returned normally, whatever the hooks
did, calling it again stops at the assertion. -/
theorem initialize_only_from_uninitialized (h : Hooks) (w : World) :
    (w.obj.status ≠ .Uninitialized → GameObject.initialize h w = .fault .assertion w) ∧
      (∀ w' : World, GameObject.initialize h w = .ok w' →
        GameObject.initialize h w' = .fault .assertion w') := by
  constructor
  · intro hs
    unfold GameObject.initialize
    cases hst : w.obj.status <;>
      simp_all [GameObject.isInitialized, GameObject.isInitializing]
  · intro w' hw'
    have hst : w'.obj.status = .Initialized := by
      unfold GameObject.initialize at hw'
      split at hw'
      · exact Outcome.noConfusion hw'
      · simp only [Outcome.andThen] at hw'
        split at hw'
        · injection hw' with hw'
          rw [← hw']
          rfl
        · exact Outcome.noConfusion hw'
    simp [ GameObject.initialize, GameObject.isInitialized, hst]

/-- C4 at concrete inputs: an Initialized object, and the sample object
initialized twice. -/
theorem initialize_only_from_uninitialized_witness :
    GameObject.initialize markingHooks
        (freshWorld { sampleObject with status := .Initialized }) =
      .fault .assertion (freshWorld { sampleObject with status := .Initialized }) ∧
    ( GameObject.initialize markingHooks (freshWorld sampleObject)).andThen
        ( GameObject.initialize markingHooks) =
      .fault .assertion
        { obj := { sampleObject with status := .Initialized, active := true }
          initializedComponents := [3, 2, 1]
          trace := [⟨.component 1 Hook.initializeHook, .Initializing, false⟩,
                    ⟨.component 2 Hook.initializeHook, .Initializing, false⟩,
                    ⟨.component 3 Hook.initializeHook, .Initializing, false⟩] } := by
  constructor
  · exact (initialize_only_from_uninitialized markingHooks
      (freshWorld { sampleObject with status := .Initialized })).1 (by decide)
  · have h1 : GameObject.initialize markingHooks (freshWorld sampleObject) =
        .ok { obj := { sampleObject with status := .Initialized, active := true }
              initializedComponents := [3, 2, 1]
              trace := [⟨.component 1 Hook.initializeHook, .Initializing, false⟩,
                        ⟨.component 2 Hook.initializeHook, .Initializing, false⟩,
                        ⟨.component 3 Hook.initializeHook, .Initializing, false⟩] } := by
      decide
    have h2 := (initialize_only_from_uninitialized markingHooks (freshWorld sampleObject)).2 _ h1
    rw [h1]
    exact h2

/-- C6: `release()` on an Initialized object whose components are locked returns
normally with `toReleaseInNextFrame` set and nothing else changed: the status is
still Initialized and no hook, messenger, scene or registry call was made. -/
theorem release_deferred_under_lock (h : Hooks) (w : World)
    (hs : w.obj.status = .Initialized)
    (hlock : w.obj.componentsInLock = true) :
    GameObject.release h w =
        .ok { w with obj := { w.obj with toReleaseInNextFrame := true } } ∧
      ( GameObject.release h w).state.obj.status = .Initialized ∧
      ( GameObject.release h w).state.obj.toReleaseInNextFrame = true ∧
      ( GameObject.release h w).state.trace = w.trace := by
  have hr : GameObject.release h w =
      .ok { w with obj := { w.obj with toReleaseInNextFrame := true } } := by
    simp [GameObject.release, GameObject.releaseInNextFrame, World.withObj,
      GameObject.isInitialized, GameObject.isReleasing, GameObject.isReleased, hs, hlock]
  refine ⟨hr, ?_, ?_, ?_⟩ <;> rw [hr] <;> simp [Outcome.state, hs]

/-- C6 at a concrete input: the sample object, Initialized and locked. -/
theorem release_deferred_under_lock_witness :
    GameObject.release markingHooks
        (freshWorld { sampleObject with status := .Initialized, componentsInLock := true }) =
      .ok (freshWorld { sampleObject with status := .Initialized, componentsInLock := true,
                                          toReleaseInNextFrame := true }) :=
  (release_deferred_under_lock markingHooks
    (freshWorld { sampleObject with status := .Initialized, componentsInLock := true })
    rfl rfl).1

/-! ## Cascades over passive hooks -/

theorem external_passive (h : Hooks) (hp : h.Passive) (call : ExternalCall) (w : World) :
    ∃ ics : List Ptr,
      external h call w =
        .ok { w with initializedComponents := ics, trace := w.trace ++ [w.observe call] } ∧
      ∀ c : Ptr, call.receiver ≠ some c →
        ics.contains c = w.initializedComponents.contains c := by
  obtain ⟨ics, h1, h2⟩ := hp call { w with trace := w.trace ++ [w.observe call] }
  exact ⟨ics, by rw [external, h1], h2⟩

theorem forEachComponent_passive (h : Hooks) (hp : h.Passive) (hook : Hook) :
    ∀ (cs : List Ptr) (w : World), ∃ ics : List Ptr,
      forEachComponent h hook cs w =
        .ok { w with initializedComponents := ics
                     trace := w.trace ++ cs.map (fun c => w.observe (.component c hook)) } := by
  intro cs
  induction cs with
  | nil =>
    intro w
    exact ⟨w.initializedComponents, by simp [forEachComponent]⟩
  | cons c rest ih =>
    intro w
    obtain ⟨ics1, h1, -⟩ := external_passive h hp (.component c hook) w
    obtain ⟨ics2, h2⟩ := ih
      { w with initializedComponents := ics1
               trace := w.trace ++ [w.observe (.component c hook)] }
    refine ⟨ics2, ?_⟩
    simp only [forEachComponent, h1, Outcome.andThen, h2]
    simp [World.observe]

theorem lockedCascade_passive (h : Hooks) (hp : h.Passive) (hook : Hook) (w : World) :
    ∃ ics : List Ptr,
      lockedCascade h hook w =
        .ok { obj := { w.obj with componentsInLock := false }
              initializedComponents := ics
              trace := w.trace ++ w.obj.components.map
                (fun c => ⟨.component c hook, w.obj.status, true⟩) } := by
  obtain ⟨ics, h1⟩ := forEachComponent_passive h hp hook w.obj.components
    { w with obj := w.obj.lockComponents }
  refine ⟨ics, ?_⟩
  simp only [lockedCascade, GameObject.lockComponents] at h1 ⊢
  rw [h1]
  simp [Outcome.andThen, GameObject.unlockComponents, World.observe]

theorem markingHooks_passive : markingHooks.Passive := by
  intro call w
  cases call with
  | component c hook =>
    cases hook <;>
      first
      | exact ⟨w.initializedComponents, rfl, fun _ _ => rfl⟩
      | refine ⟨c :: w.initializedComponents, rfl, ?_⟩
        intro x hx
        have hne : x ≠ c := by
          intro e
          exact hx (by simp [ExternalCall.receiver, e])
        simp [List.contains_cons, hne]
  | messengerRelease => exact ⟨w.initializedComponents, rfl, fun _ _ => rfl⟩
  | sceneRemoveGameObject s => exact ⟨w.initializedComponents, rfl, fun _ _ => rfl⟩
  | gameManagerDetach => exact ⟨w.initializedComponents, rfl, fun _ _ => rfl⟩
  | onResolveLockedTasks => exact ⟨w.initializedComponents, rfl, fun _ _ => rfl⟩

theorem Yields.ok (o : GameObject) (ics : List Ptr) (tr : List Observed) :
    Yields (.ok { obj := o, initializedComponents := ics, trace := tr }) o tr :=
  ⟨ics, rfl⟩

theorem Yields.andThen {r : Outcome World} {k : World → Outcome World}
    {o o' : GameObject} {tr tr' : List Observed}
    (h1 : Yields r o tr)
    (h2 : ∀ ics : List Ptr,
      Yields (k { obj := o, initializedComponents := ics, trace := tr }) o' tr') :
    Yields (r.andThen k) o' tr' := by
  obtain ⟨ics, rfl⟩ := h1
  exact h2 ics

theorem yields_external (h : Hooks) (hp : h.Passive) (call : ExternalCall)
    (o : GameObject) (ics : List Ptr) (tr : List Observed) :
    Yields (external h call { obj := o, initializedComponents := ics, trace := tr }) o
      (tr ++ [⟨call, o.status, o.componentsInLock⟩]) := by
  obtain ⟨ics', h1, -⟩ := external_passive h hp call
    { obj := o, initializedComponents := ics, trace := tr }
  exact ⟨ics', h1⟩

theorem yields_forEach (h : Hooks) (hp : h.Passive) (hook : Hook) (cs : List Ptr)
    (o : GameObject) (ics : List Ptr) (tr : List Observed) :
    Yields (forEachComponent h hook cs { obj := o, initializedComponents := ics, trace := tr }) o
      (tr ++ cs.map (fun c => ⟨.component c hook, o.status, o.componentsInLock⟩)) := by
  obtain ⟨ics', h1⟩ := forEachComponent_passive h hp hook cs
    { obj := o, initializedComponents := ics, trace := tr }
  exact ⟨ics', h1⟩

theorem yields_lockedCascade (h : Hooks) (hp : h.Passive) (hook : Hook)
    (o : GameObject) (ics : List Ptr) (tr : List Observed) :
    Yields (lockedCascade h hook { obj := o, initializedComponents := ics, trace := tr })
      { o with componentsInLock := false }
      (tr ++ o.components.map (fun c => ⟨.component c hook, o.status, true⟩)) := by
  obtain ⟨ics', h1⟩ := lockedCascade_passive h hp hook
    { obj := o, initializedComponents := ics, trace := tr }
  exact ⟨ics', h1⟩

/-! ## Dispatch guards -/

/-- C8: on an object that is Releasing, Released or not Initialized, each of the
nine dispatch functions returns the world as it was: no hook is called and no
field, `componentsInLock` included, changes. The same holds on an Initialized
object with `active = false` for all of them but `render`, which, on such an
object and with hooks that do not call back, calls `render` on every component
in sequence order under the lock. -/
theorem dispatch_guards (h : Hooks) (w : World) (delta : Delta) (info : CollisionInfo) :
    ((w.obj.isReleasing = true ∨ w.obj.isReleased = true ∨ w.obj.isInitialized = false ∨
        (w.obj.status = .Initialized ∧ w.obj.active = false)) →
      GameObject.updatePhysics h delta w = .ok w ∧
      GameObject.update h delta w = .ok w ∧
      GameObject.onCollisionEnter h info w = .ok w ∧
      GameObject.onCollisionStay h info w = .ok w ∧
      GameObject.onCollisionExit h info w = .ok w ∧
      GameObject.onTriggerEnter h info w = .ok w ∧
      GameObject.onTriggerStay h info w = .ok w ∧
      GameObject.onTriggerExit h info w = .ok w) ∧
    ((w.obj.isReleasing = true ∨ w.obj.isReleased = true ∨ w.obj.isInitialized = false) →
      GameObject.render h w = .ok w) ∧
    (h.Passive → w.obj.status = .Initialized → w.obj.active = false →
      ∃ ics : List Ptr,
        GameObject.render h w =
          .ok { obj := { w.obj with componentsInLock := false }
                initializedComponents := ics
                trace := w.trace ++ w.obj.components.map
                  (fun c => ⟨.component c .render, .Initialized, true⟩) }) := by
  refine ⟨?_, ?_, ?_⟩
  · intro hg
    have hguard : (w.obj.isReleasing || w.obj.isReleased || !w.obj.isInitialized ||
        !w.obj.isActive) = true := by
      rcases hg with hg | hg | hg | ⟨-, hg⟩ <;> simp [hg, GameObject.isActive]
    simp [GameObject.updatePhysics, GameObject.update, GameObject.onCollisionEnter,
      GameObject.onCollisionStay, GameObject.onCollisionExit, GameObject.onTriggerEnter,
      GameObject.onTriggerStay, GameObject.onTriggerExit, hguard]
  · intro hg
    have hguard : (w.obj.isReleasing || w.obj.isReleased || !w.obj.isInitialized) = true := by
      rcases hg with hg | hg | hg <;> simp [hg]
    simp [GameObject.render, hguard]
  · intro hp hs _
    obtain ⟨ics, h1⟩ := lockedCascade_passive h hp .render w
    refine ⟨ics, ?_⟩
    rw [hs] at h1
    simp [GameObject.render, GameObject.isReleasing, GameObject.isReleased,
      GameObject.isInitialized, hs, h1]

/-- C8 at concrete inputs: `update` on the Released sample object and on the
Initialized, inactive one is a no-op, while `render` on the inactive one reaches
all three components. -/
theorem dispatch_guards_witness :
    GameObject.update markingHooks 16 (freshWorld { sampleObject with status := .Released }) =
      .ok (freshWorld { sampleObject with status := .Released }) ∧
    GameObject.update markingHooks 16
        (freshWorld { sampleObject with status := .Initialized }) =
      .ok (freshWorld { sampleObject with status := .Initialized }) ∧
    (∃ ics : List Ptr,
      GameObject.render markingHooks (freshWorld { sampleObject with status := .Initialized }) =
        .ok { obj := { sampleObject with status := .Initialized }
              initializedComponents := ics
              trace := [⟨.component 1 .render, .Initialized, true⟩,
                        ⟨.component 2 .render, .Initialized, true⟩,
                        ⟨.component 3 .render, .Initialized, true⟩] }) :=
  ⟨((dispatch_guards markingHooks (freshWorld { sampleObject with status := .Released })
      16 0).1 (Or.inr (Or.inl rfl))).2.1,
   ((dispatch_guards markingHooks (freshWorld { sampleObject with status := .Initialized })
      16 0).1 (Or.inr (Or.inr (Or.inr ⟨rfl, rfl⟩)))).2.1,
   (dispatch_guards markingHooks (freshWorld { sampleObject with status := .Initialized })
      16 0).2.2 markingHooks_passive rfl rfl⟩

/-! ## initialize -/

theorem yields_release (h : Hooks) (hp : h.Passive) (o : GameObject) (ics : List Ptr)
    (tr : List Observed) (hs : o.status = .Initialized) (hlock : o.componentsInLock = false) :
    Yields ( GameObject.release h { obj := o, initializedComponents := ics, trace := tr })
      { o with status := .Released }
      (tr ++ o.components.map (fun c => ⟨.component c .release, .Releasing, false⟩) ++
        [⟨.messengerRelease, .Releasing, false⟩] ++
        (if o.parentScene ≠ NULL then
          [⟨.sceneRemoveGameObject o.parentScene, .Releasing, false⟩]
         else []) ++
        [⟨.gameManagerDetach, .Releasing, false⟩]) := by
  obtain ⟨id, name, layer, scene, active, selfInit, toRel, lock, status, comps, transform,
    toAdd, toRemove⟩ := o
  simp only at hlock hs
  subst hlock hs
  unfold GameObject.release
  rw [if_neg (by simp), if_neg (by simp [GameObject.isInitialized, GameObject.isReleasing,
    GameObject.isReleased])]
  dsimp only
  refine Yields.andThen (yields_forEach h hp .release _ _ _ _) (fun ics1 => ?_)
  dsimp only
  refine Yields.andThen (yields_external h hp .messengerRelease _ _ _) (fun ics2 => ?_)
  dsimp only [GameObject.setToReleasing]
  by_cases hscene : scene = NULL
  · rw [if_neg (by simp [hscene]), if_neg (by simp [hscene])]
    refine Yields.andThen (Yields.ok _ _ _) (fun ics3 => ?_)
    dsimp only
    refine Yields.andThen (yields_external h hp .gameManagerDetach _ _ _) (fun ics4 => ?_)
    exact ⟨ics4, by simp [GameObject.setToReleased]⟩
  · rw [if_pos (by simpa using hscene), if_pos hscene]
    refine Yields.andThen (yields_external h hp (.sceneRemoveGameObject scene) _ _ _)
      (fun ics3 => ?_)
    dsimp only
    refine Yields.andThen (yields_external h hp .gameManagerDetach _ _ _) (fun ics4 => ?_)
    exact ⟨ics4, by simp [GameObject.setToReleased]⟩

/-! ## The pending queues -/

theorem doAddComponents_nonTransform (env : Env) :
    ∀ (adds : List Ptr) (o : GameObject), (∀ c ∈ adds, env.isTransform c = false) →
      doAddComponents env adds o = .ok { o with components := o.components ++ adds } := by
  intro adds
  induction adds with
  | nil => intro o _; simp [doAddComponents]
  | cons c rest ih =>
    intro o hadds
    have hc : env.isTransform c = false := hadds c (List.mem_cons_self _ _)
    have hrest := ih { o with components := o.components ++ [c] }
      (fun x hx => hadds x (List.mem_cons_of_mem _ hx))
    simp only [doAddComponents, GameObject.doAddComponent, hc, Bool.and_false,
      Bool.false_eq_true, if_false, Outcome.andThen, hrest]
    simp

theorem foldl_doRemoveComponent :
    ∀ (removes : List Ptr) (o : GameObject),
      removes.foldl GameObject.doRemoveComponent o =
        { o with components := removes.foldl vectorErase o.components } := by
  intro removes
  induction removes with
  | nil => intro o; rfl
  | cons c rest ih =>
    intro o
    simp only [List.foldl_cons, ih, GameObject.doRemoveComponent]

theorem mem_foldl_vectorErase (x : Ptr) :
    ∀ (removes vec : List Ptr),
      x ∈ removes.foldl vectorErase vec ↔ x ∈ vec ∧ x ∉ removes := by
  intro removes
  induction removes with
  | nil => intro vec; simp
  | cons c rest ih =>
    intro vec
    simp only [List.foldl_cons, ih, mem_vectorErase, List.mem_cons, not_or]
    tauto

theorem foldl_vectorErase_eq_filter :
    ∀ (removes vec : List Ptr),
      removes.foldl vectorErase vec = vec.filter (fun c => !removes.contains c) := by
  intro removes
  induction removes with
  | nil => intro vec; simp
  | cons c rest ih =>
    intro vec
    simp only [List.foldl_cons, ih, vectorErase, List.filter_filter]
    congr 1
    funext x
    by_cases hx : x = c
    · simp [hx]
    · simp [List.contains_cons, hx]

theorem updateAddAndRemove_nonTransform (env : Env) (o : GameObject)
    (hadds : ∀ c ∈ o.componentsToAddInNextFrame, env.isTransform c = false) :
    o.updateAddAndRemoveComponentInNextFrame env =
      .ok { o with
              components := o.componentsToRemoveInNextFrame.foldl vectorErase
                (o.components ++ o.componentsToAddInNextFrame)
              componentsToAddInNextFrame := []
              componentsToRemoveInNextFrame := [] } := by
  simp only [GameObject.updateAddAndRemoveComponentInNextFrame,
    doAddComponents_nonTransform env _ o hadds, Outcome.andThen, foldl_doRemoveComponent]

/-! ## release -/

/-- C5: on an unlocked object, `release()` stops at the assertion with the world
as it was unless the status is Initialized; from Initialized, with hooks that do
not call back, it returns normally having called, in this order and all while
the status was Releasing: `release` on every component in sequence order, the
messenger's `release`, the scene's `removeGameObject` exactly when the parent
scene is not null, and the registry's `detach`; on return the status is Released
and no other field has changed. -/
theorem release_contract_and_order (h : Hooks) (w : World)
    (hlock : w.obj.componentsInLock = false) :
    (w.obj.status ≠ .Initialized → GameObject.release h w = .fault .assertion w) ∧
    (w.obj.status = .Initialized → h.Passive →
      ∃ ics : List Ptr,
        GameObject.release h w =
          .ok { obj := { w.obj with status := .Released }
                initializedComponents := ics
                trace := w.trace ++
                  w.obj.components.map (fun c => ⟨.component c .release, .Releasing, false⟩) ++
                  [⟨.messengerRelease, .Releasing, false⟩] ++
                  (if w.obj.parentScene ≠ NULL then
                    [⟨.sceneRemoveGameObject w.obj.parentScene, .Releasing, false⟩]
                   else []) ++
                  [⟨.gameManagerDetach, .Releasing, false⟩] }) := by
  constructor
  · intro hs
    unfold GameObject.release
    cases hst : w.obj.status <;>
      simp_all [GameObject.isInitialized, GameObject.isReleasing, GameObject.isReleased]
  · intro hs hp
    exact yields_release h hp w.obj w.initializedComponents w.trace hs hlock

/-- C5 at concrete inputs: releasing the uninitialized sample object is refused;
releasing it once Initialized runs the whole teardown in order. -/
theorem release_contract_and_order_witness :
    GameObject.release markingHooks (freshWorld sampleObject) =
      .fault .assertion (freshWorld sampleObject) ∧
    (∃ ics : List Ptr,
      GameObject.release markingHooks
          (freshWorld { sampleObject with status := .Initialized, active := true }) =
        .ok { obj := { sampleObject with status := .Released, active := true }
              initializedComponents := ics
              trace := [⟨.component 1 .release, .Releasing, false⟩,
                        ⟨.component 2 .release, .Releasing, false⟩,
                        ⟨.component 3 .release, .Releasing, false⟩,
                        ⟨.messengerRelease, .Releasing, false⟩,
                        ⟨.sceneRemoveGameObject 100, .Releasing, false⟩,
                        ⟨.gameManagerDetach, .Releasing, false⟩] }) :=
  ⟨(release_contract_and_order markingHooks (freshWorld sampleObject) rfl).1 (by decide),
   (release_contract_and_order markingHooks
      (freshWorld { sampleObject with status := .Initialized, active := true }) rfl).2
      rfl markingHooks_passive⟩

/-! ## resolveLockedTasks -/

/-- C2: on an Initialized, unlocked object with no release pending, whose
pending-add queue holds no Transform, and with hooks that do not call back,
`resolveLockedTasks()` returns normally with both queues empty and the live
sequence equal to the old one with the pending adds appended in queue order and
then every pending remove erased; a component queued for removal, so also one
queued for both add and remove, is not in the live sequence afterwards. The
extension hook and the components' `resolveLockedTasks` hooks see the new
sequence. -/
theorem pending_queues_drained (env : Env) (h : Hooks) (hp : h.Passive) (w : World)
    (hs : w.obj.status = .Initialized)
    (hlock : w.obj.componentsInLock = false)
    (hrel : w.obj.toReleaseInNextFrame = false)
    (hadds : ∀ c ∈ w.obj.componentsToAddInNextFrame, env.isTransform c = false) :
    ∃ (ics live : List Ptr),
      GameObject.resolveLockedTasks env h w =
        .ok { obj := { w.obj with components := live
                                  componentsToAddInNextFrame := []
                                  componentsToRemoveInNextFrame := [] }
              initializedComponents := ics
              trace := w.trace ++ [⟨.onResolveLockedTasks, .Initialized, false⟩] ++
                live.map (fun c => ⟨.component c .resolveLockedTasks, .Initialized, true⟩) } ∧
      live = w.obj.componentsToRemoveInNextFrame.foldl vectorErase
        (w.obj.components ++ w.obj.componentsToAddInNextFrame) ∧
      live = (w.obj.components ++ w.obj.componentsToAddInNextFrame).filter
        (fun c => !w.obj.componentsToRemoveInNextFrame.contains c) ∧
      (∀ c : Ptr, c ∈ w.obj.componentsToAddInNextFrame →
        c ∈ w.obj.componentsToRemoveInNextFrame → c ∉ live) := by
  have key : Yields ( GameObject.resolveLockedTasks env h w)
      { w.obj with
          components := w.obj.componentsToRemoveInNextFrame.foldl vectorErase
            (w.obj.components ++ w.obj.componentsToAddInNextFrame)
          componentsToAddInNextFrame := []
          componentsToRemoveInNextFrame := [] }
      (w.trace ++ [⟨.onResolveLockedTasks, .Initialized, false⟩] ++
        (w.obj.componentsToRemoveInNextFrame.foldl vectorErase
          (w.obj.components ++ w.obj.componentsToAddInNextFrame)).map
          (fun c => ⟨.component c .resolveLockedTasks, .Initialized, true⟩)) := by
    obtain ⟨⟨id, name, layer, scene, active, selfInit, toRel, lock, status, comps, transform,
      toAdd, toRemove⟩, ics, tr⟩ := w
    simp only at hlock hs hrel hadds
    subst hlock hs hrel
    have hupd := updateAddAndRemove_nonTransform env
      { id := id, name := name, layer := layer, parentScene := scene, active := active,
        selfInitialize := selfInit, toReleaseInNextFrame := false, componentsInLock := false,
        status := .Initialized, components := comps, transform := transform,
        componentsToAddInNextFrame := toAdd, componentsToRemoveInNextFrame := toRemove } hadds
    unfold GameObject.resolveLockedTasks
    rw [if_neg (by simp [GameObject.isReleasing, GameObject.isReleased]),
      if_neg (by simp [GameObject.isInitialized])]
    unfold resolveLockedTasksBody
    rw [if_neg (by simp)]
    dsimp only
    rw [hupd]
    dsimp only [World.withObj]
    refine Yields.andThen (Yields.ok _ _ _) (fun ics1 => ?_)
    dsimp only
    refine Yields.andThen (yields_external h hp .onResolveLockedTasks _ _ _) (fun ics2 => ?_)
    exact yields_lockedCascade h hp .resolveLockedTasks _ _ _
  obtain ⟨ics, hk⟩ := key
  refine ⟨ics, _, hk, rfl, foldl_vectorErase_eq_filter _ _, ?_⟩
  intro c _ hrem
  rw [mem_foldl_vectorErase]
  exact fun hc => hc.2 hrem

/-- C2 at a concrete input: [T, A, B] with pending adds [4, 5] and pending
removes [4, 2] becomes [T, B, 5]. -/
theorem pending_queues_drained_witness :
    ∃ ics : List Ptr,
      GameObject.resolveLockedTasks sampleEnv markingHooks
          (freshWorld { sampleObject with status := .Initialized, active := true
                                          componentsToAddInNextFrame := [4, 5]
                                          componentsToRemoveInNextFrame := [4, 2] }) =
        .ok { obj := { sampleObject with status := .Initialized, active := true
                                         components := [1, 3, 5] }
              initializedComponents := ics
              trace := [⟨.onResolveLockedTasks, .Initialized, false⟩,
                        ⟨.component 1 .resolveLockedTasks, .Initialized, true⟩,
                        ⟨.component 3 .resolveLockedTasks, .Initialized, true⟩,
                        ⟨.component 5 .resolveLockedTasks, .Initialized, true⟩] } := by
  obtain ⟨ics, live, h1, h2, -⟩ := pending_queues_drained sampleEnv markingHooks
    markingHooks_passive
    (freshWorld { sampleObject with status := .Initialized, active := true
                                    componentsToAddInNextFrame := [4, 5]
                                    componentsToRemoveInNextFrame := [4, 2] })
    rfl rfl rfl (by decide)
  refine ⟨ics, ?_⟩
  rw [h1, h2]
  rfl

/-- C11: on an unlocked object whose status is Initializing or Initialized,
`addComponent` of a non-null Transform that differs from the current transform
and is not in the live sequence stops at the assertion of `doAddComponent`; the
object, so the live sequence and the transform reference, is as it was. -/
theorem transform_replacement_refused (env : Env) (o : GameObject) (T' : Ptr)
    (hlock : o.componentsInLock = false)
    (hs : o.status = .Initializing ∨ o.status = .Initialized)
    (hT' : env.isTransform T' = true)
    (hnull : T' ≠ NULL)
    (hne : T' ≠ o.transform)
    (hnin : T' ∉ o.components) :
    o.addComponent env T' = .fault .assertion o ∧
      (o.addComponent env T').state.getAllComponents = o.getAllComponents ∧
      (o.addComponent env T').state.getTransform = o.getTransform := by
  have hf : o.addComponent env T' = .fault .assertion o := by
    rcases hs with hs | hs <;>
      simp [GameObject.addComponent, GameObject.doAddComponent, GameObject.isReleasing,
        GameObject.isReleased, GameObject.isInitializing, GameObject.isInitialized,
        vectorContain, hlock, hs, hnull, hne, hnin, hT']
  refine ⟨hf, ?_, ?_⟩ <;> rw [hf] <;> rfl

/-- C11 at a concrete input: the second Transform (address 9) offered to the
initialized sample object. -/
theorem transform_replacement_refused_witness :
    readyObject.addComponent sampleEnv 9 = .fault .assertion readyObject :=
  (transform_replacement_refused sampleEnv readyObject 9 rfl (Or.inr rfl) rfl
    (by decide) (by decide) (by decide)).1

/-- C12: on an Initialized, unlocked object, `removeComponent` of a non-null
component `A` changes only the live sequence, which becomes the old one without
the elements equal to `A`: `A` is not in it, it is a subsequence of the old one
(the others keep their relative order), every other component is in it exactly
when it was before, and nothing changes when `A` was not in the sequence. -/
theorem remove_erases_component (o : GameObject) (A : Ptr)
    (hs : o.status = .Initialized)
    (hlock : o.componentsInLock = false)
    (hA : A ≠ NULL) :
    o.removeComponent A = { o with components := o.components.filter (fun c => c != A) } ∧
      (o.removeComponent A).getAllComponents = o.getAllComponents.filter (fun c => c != A) ∧
      A ∉ (o.removeComponent A).getAllComponents ∧
      List.Sublist (o.removeComponent A).getAllComponents o.getAllComponents ∧
      (∀ c : Ptr, c ≠ A →
        (c ∈ (o.removeComponent A).getAllComponents ↔ c ∈ o.getAllComponents)) ∧
      (A ∉ o.getAllComponents → o.removeComponent A = o) := by
  have hr : o.removeComponent A =
      { o with components := o.components.filter (fun c => c != A) } := by
    simp [GameObject.removeComponent, GameObject.doRemoveComponent, vectorErase,
      GameObject.isReleasing, GameObject.isReleased, hs, hlock, hA]
  refine ⟨hr, ?_, ?_, ?_, ?_, ?_⟩
  · rw [hr]; rfl
  · rw [hr]; simp [GameObject.getAllComponents]
  · rw [hr]; exact List.filter_sublist _
  · intro c hc
    rw [hr]
    simp [GameObject.getAllComponents, hc]
  · intro hna
    rw [hr]
    have : o.components.filter (fun c => c != A) = o.components :=
      vectorErase_of_not_mem o.components A hna
    rw [this]

/-- C12 at the spec's input: [T, A, B] without A is [T, B]. -/
theorem remove_erases_component_witness :
    (readyObject.removeComponent 2).getAllComponents = [1, 3] := by
  rw [(remove_erases_component readyObject 2 rfl rfl (by decide)).2.1]
  decide

theorem getAllComponentsLoop_eq (env : Env) (name : String) :
    ∀ (cs ret : List Ptr),
      getAllComponentsLoop env name cs ret =
        ret ++ cs.filter (fun c => c != NULL && env.getName c == name) := by
  intro cs
  induction cs with
  | nil => intro ret; simp [getAllComponentsLoop]
  | cons c rest ih =>
    intro ret
    by_cases hc : (c != NULL && env.getName c == name) = true
    · simp only [getAllComponentsLoop, hc, if_true, ih, List.filter_cons]
      simp
    · simp only [getAllComponentsLoop, hc, if_false, ih, List.filter_cons]
      simp

theorem getComponentLoop_eq (env : Env) (name : String) :
    ∀ cs : List Ptr,
      getComponentLoop env name cs =
        (cs.filter (fun c => c != NULL && env.getName c == name)).headD NULL := by
  intro cs
  induction cs with
  | nil => simp [getComponentLoop]
  | cons c rest ih =>
    by_cases hc : (c != NULL && env.getName c == name) = true
    · simp only [getComponentLoop, hc, if_true, List.filter_cons]
      simp
    · simp only [getComponentLoop, hc, if_false, ih, List.filter_cons]
      simp

/-- C13: `getAllComponents(name)` is the live sequence restricted, in order, to
the non-null components whose name is exactly `name` (so, when the sequence
holds no null pointer, to the components of that name); `getComponent(name)` is
its first element, and is null exactly when it is empty. Both are functions of
the object with no state to change. -/
theorem lookup_by_name (env : Env) (o : GameObject) (name : String) :
    o.getAllComponentsNamed env name =
        o.getAllComponents.filter (fun c => c != NULL && env.getName c == name) ∧
      ((∀ c ∈ o.getAllComponents, c ≠ NULL) →
        o.getAllComponentsNamed env name =
          o.getAllComponents.filter (fun c => env.getName c == name)) ∧
      o.getComponent env name = (o.getAllComponentsNamed env name).headD NULL ∧
      (o.getComponent env name = NULL ↔ o.getAllComponentsNamed env name = []) := by
  have hall : o.getAllComponentsNamed env name =
      o.components.filter (fun c => c != NULL && env.getName c == name) := by
    simp [GameObject.getAllComponentsNamed, getAllComponentsLoop_eq]
  have hfirst : o.getComponent env name = (o.getAllComponentsNamed env name).headD NULL := by
    rw [hall]
    exact getComponentLoop_eq env name o.components
  refine ⟨hall, ?_, hfirst, ?_⟩
  · intro hnn
    rw [hall]
    apply List.filter_congr
    intro c hc
    have : c ≠ NULL := hnn c hc
    simp [this]
  · rw [hfirst, hall]
    cases hl : o.components.filter (fun c => c != NULL && env.getName c == name) with
    | nil => simp
    | cons x xs =>
      have hx : x ∈ o.components.filter (fun c => c != NULL && env.getName c == name) := by
        rw [hl]; exact List.mem_cons_self _ _
      have hx' := (List.mem_filter.mp hx).2
      simp only [Bool.and_eq_true, bne_iff_ne] at hx'
      simp [hx'.1]

/-- C13 at a concrete input: the two components named "Component" of the sample
object, and a name nobody has. -/
theorem lookup_by_name_witness :
    readyObject.getAllComponentsNamed sampleEnv "Component" = [2, 3] ∧
    readyObject.getComponent sampleEnv "Component" = 2 ∧
    readyObject.getComponent sampleEnv "Camera" = NULL := by
  have h1 := lookup_by_name sampleEnv readyObject "Component"
  have h2 := lookup_by_name sampleEnv readyObject "Camera"
  refine ⟨?_, ?_, ?_⟩
  · rw [h1.1]; decide
  · rw [h1.2.2.1, h1.1]; decide
  · rw [h2.2.2.2, h2.1]; decide

/-! ## Invariants of the live sequence -/

theorem addComponentInNextFrame_frame (o : GameObject) (c : Ptr) :
    ∃ q : List Ptr, o.addComponentInNextFrame c = { o with componentsToAddInNextFrame := q } := by
  unfold GameObject.addComponentInNextFrame
  split
  · exact ⟨_, rfl⟩
  · split
    · exact ⟨_, rfl⟩
    · split
      · exact ⟨_, rfl⟩
      · exact ⟨_, rfl⟩

theorem removeComponentInNextFrame_frame (o : GameObject) (c : Ptr) :
    ∃ q : List Ptr,
      o.removeComponentInNextFrame c = { o with componentsToRemoveInNextFrame := q } := by
  unfold GameObject.removeComponentInNextFrame
  split
  · exact ⟨_, rfl⟩
  · split
    · exact ⟨_, rfl⟩
    · exact ⟨_, rfl⟩

theorem addComponent_cases (env : Env) (o : GameObject) (c : Ptr) :
    (∃ q : List Ptr, o.addComponent env c = .ok { o with componentsToAddInNextFrame := q }) ∨
    o.addComponent env c = .fault .assertion o ∨
    (c ∉ o.components ∧ c ≠ o.transform ∧
      o.addComponent env c =
        .ok { o with components := c :: vectorErase o.components o.transform
                     transform := c }) ∨
    (c ∉ o.components ∧
      o.addComponent env c = .ok { o with components := o.components ++ [c] }) := by
  unfold GameObject.addComponent
  split
  · obtain ⟨q, hq⟩ := addComponentInNextFrame_frame o c
    exact Or.inl ⟨q, by rw [hq]⟩
  · split
    · exact Or.inl ⟨_, rfl⟩
    · split
      · exact Or.inl ⟨_, rfl⟩
      · split
        · exact Or.inl ⟨_, rfl⟩
        · rename_i hnc
          have hnin : c ∉ o.components := by
            intro hm
            exact hnc ((vectorContain_iff _ _).mpr hm)
          unfold GameObject.doAddComponent
          split
          · rename_i hbranch
            split
            · exact Or.inr (Or.inl rfl)
            · refine Or.inr (Or.inr (Or.inl ⟨hnin, ?_, rfl⟩))
              simp only [Bool.and_eq_true, bne_iff_ne] at hbranch
              exact hbranch.1
          · exact Or.inr (Or.inr (Or.inr ⟨hnin, rfl⟩))

theorem removeComponent_cases (o : GameObject) (c : Ptr) :
    (∃ q : List Ptr, o.removeComponent c = { o with componentsToRemoveInNextFrame := q }) ∨
    o.removeComponent c = { o with components := vectorErase o.components c } := by
  unfold GameObject.removeComponent
  split
  · obtain ⟨q, hq⟩ := removeComponentInNextFrame_frame o c
    exact Or.inl ⟨q, hq⟩
  · split
    · exact Or.inl ⟨_, rfl⟩
    · split
      · exact Or.inl ⟨_, rfl⟩
      · exact Or.inr rfl

/-- C17: when the live sequence starts with the current transform and holds it
once, the same is true after every `addComponent` that returns normally, for a
Transform or any other component, and after `removeComponent` of anything but
the current transform; and a non-Transform component that `addComponent` adds
right away (unlocked object, not releasing, component non-null and new) goes to
the end of the sequence. -/
theorem transform_stays_at_front (env : Env) (o : GameObject) (c : Ptr) (rest : List Ptr)
    (hfront : o.components = o.transform :: rest)
    (honce : o.transform ∉ rest) :
    (∀ o' : GameObject, o.addComponent env c = .ok o' →
        ∃ rest' : List Ptr, o'.components = o'.transform :: rest' ∧ o'.transform ∉ rest') ∧
      (c ≠ o.transform →
        ∃ rest' : List Ptr,
          (o.removeComponent c).components = (o.removeComponent c).transform :: rest' ∧
          (o.removeComponent c).transform ∉ rest') ∧
      (o.componentsInLock = false → o.isReleasing = false → o.isReleased = false →
        c ≠ NULL → c ∉ o.components → env.isTransform c = false →
        o.addComponent env c = .ok { o with components := o.components ++ [c] }) := by
  refine ⟨?_, ?_, ?_⟩
  · intro o' hadd
    rcases addComponent_cases env o c with ⟨q, h1⟩ | h1 | ⟨hnin, -, h1⟩ | ⟨hnin, h1⟩
    · rw [h1] at hadd
      injection hadd with hadd
      subst hadd
      exact ⟨rest, hfront, honce⟩
    · rw [h1] at hadd
      exact Outcome.noConfusion hadd
    · rw [h1] at hadd
      injection hadd with hadd
      subst hadd
      have herase : vectorErase o.components o.transform = rest := by
        rw [hfront]
        have h2 : vectorErase (o.transform :: rest) o.transform =
            vectorErase rest o.transform := by
          simp [vectorErase]
        rw [h2]
        exact vectorErase_of_not_mem rest o.transform honce
      refine ⟨rest, ?_, ?_⟩
      · simp only [herase]
      · intro hm
        apply hnin
        rw [hfront]
        exact List.mem_cons_of_mem _ hm
    · rw [h1] at hadd
      injection hadd with hadd
      subst hadd
      refine ⟨rest ++ [c], ?_, ?_⟩
      · simp [hfront]
      · intro hm
        rcases List.mem_append.mp hm with hm | hm
        · exact honce hm
        · apply hnin
          rw [hfront, List.mem_singleton.mp hm]
          exact List.mem_cons_self _ _
  · intro hne
    rcases removeComponent_cases o c with ⟨q, h1⟩ | h1
    · rw [h1]
      exact ⟨rest, hfront, honce⟩
    · rw [h1]
      refine ⟨vectorErase rest c, ?_, ?_⟩
      · simp only [hfront]
        have hne' : o.transform ≠ c := fun e => hne e.symm
        simp [vectorErase, hne']
      · intro hm
        exact honce ((mem_vectorErase _ _ _).mp hm).1
  · intro hlock hr1 hr2 hnull hnin hnt
    simp [GameObject.addComponent, GameObject.doAddComponent, vectorContain, hlock, hr1, hr2,
      hnull, hnin, hnt]

/-- C17 at concrete inputs on the sample object [T, A, B]: a new component goes
to the end, a new Transform to the front, and removing A leaves T in front. -/
theorem transform_stays_at_front_witness :
    sampleObject.addComponent sampleEnv 4 =
      .ok { sampleObject with components := [1, 2, 3, 4] } ∧
    (∃ rest' : List Ptr,
      ({ sampleObject with components := [9, 2, 3], transform := 9 } : GameObject).components =
        9 :: rest' ∧ 9 ∉ rest') ∧
    (∃ rest' : List Ptr,
      (sampleObject.removeComponent 2).components =
        (sampleObject.removeComponent 2).transform :: rest' ∧
      (sampleObject.removeComponent 2).transform ∉ rest') :=
  ⟨(transform_stays_at_front sampleEnv sampleObject 4 [2, 3] rfl (by decide)).2.2
      rfl rfl rfl (by decide) (by decide) rfl,
   (transform_stays_at_front sampleEnv sampleObject 9 [2, 3] rfl (by decide)).1
      { sampleObject with components := [9, 2, 3], transform := 9 } (by decide),
   (transform_stays_at_front sampleEnv sampleObject 2 [2, 3] rfl (by decide)).2.1
      (by decide)⟩

/-! ## Dispatch on an Initialized, active object -/

theorem dispatchTable_eq_lockedCascade (h : Hooks) (delta : Delta) (info : CollisionInfo)
    (w : World) (hs : w.obj.status = .Initialized) (hact : w.obj.active = true) :
    ∀ p ∈ dispatchTable h delta info, p.2 w = lockedCascade h p.1 w := by
  intro p hp
  simp only [dispatchTable, List.mem_cons, List.mem_singleton, List.not_mem_nil, or_false] at hp
  rcases hp with rfl | rfl | rfl | rfl | rfl | rfl | rfl | rfl | rfl <;>
    simp [GameObject.updatePhysics, GameObject.update, GameObject.onCollisionEnter,
      GameObject.onCollisionStay, GameObject.onCollisionExit, GameObject.onTriggerEnter,
      GameObject.onTriggerStay, GameObject.onTriggerExit, GameObject.render,
      GameObject.isReleasing, GameObject.isReleased, GameObject.isInitialized,
      GameObject.isActive, hs, hact]

theorem addComponent_locked (env : Env) (o : GameObject) (c : Ptr)
    (hlock : o.componentsInLock = true) :
    ∃ q : List Ptr, o.addComponent env c = .ok { o with componentsToAddInNextFrame := q } := by
  obtain ⟨q, hq⟩ := addComponentInNextFrame_frame o c
  exact ⟨q, by simp [GameObject.addComponent, hlock, hq]⟩

theorem removeComponent_locked (o : GameObject) (c : Ptr)
    (hlock : o.componentsInLock = true) :
    ∃ q : List Ptr, o.removeComponent c = { o with componentsToRemoveInNextFrame := q } := by
  obtain ⟨q, hq⟩ := removeComponentInNextFrame_frame o c
  exact ⟨q, by simp [GameObject.removeComponent, hlock, hq]⟩

theorem applyRequests_locked (env : Env) :
    ∀ (reqs : List Request) (o : GameObject), o.componentsInLock = true →
      ∃ qa qr : List Ptr,
        applyRequests env reqs o =
          .ok { o with componentsToAddInNextFrame := qa
                       componentsToRemoveInNextFrame := qr } := by
  intro reqs
  induction reqs with
  | nil => intro o _; exact ⟨_, _, rfl⟩
  | cons r rest ih =>
    intro o hlock
    cases r with
    | add c =>
      obtain ⟨q, hq⟩ := addComponent_locked env o c hlock
      obtain ⟨qa, qr, h2⟩ := ih { o with componentsToAddInNextFrame := q } hlock
      exact ⟨qa, qr, by simp only [applyRequests, hq, Outcome.andThen, h2]⟩
    | remove c =>
      obtain ⟨q, hq⟩ := removeComponent_locked o c hlock
      obtain ⟨qa, qr, h2⟩ := ih { o with componentsToRemoveInNextFrame := q } hlock
      exact ⟨qa, qr, by simp only [applyRequests, hq, h2]⟩

theorem forEachComponent_onlyRequests (env : Env) (h : Hooks) (hreq : h.OnlyRequests env)
    (hook : Hook) :
    ∀ (cs : List Ptr) (o : GameObject) (ics : List Ptr) (tr : List Observed),
      o.componentsInLock = true →
      ∃ (ics' qa qr : List Ptr),
        forEachComponent h hook cs { obj := o, initializedComponents := ics, trace := tr } =
          .ok { obj := { o with componentsToAddInNextFrame := qa
                                componentsToRemoveInNextFrame := qr }
                initializedComponents := ics'
                trace := tr ++ cs.map (fun c => ⟨.component c hook, o.status, true⟩) } := by
  intro cs
  induction cs with
  | nil =>
    intro o ics tr _
    exact ⟨ics, o.componentsToAddInNextFrame, o.componentsToRemoveInNextFrame,
      by simp [forEachComponent]⟩
  | cons c rest ih =>
    intro o ics tr hlock
    obtain ⟨reqs, ics1, h1⟩ := hreq (.component c hook)
      { obj := o, initializedComponents := ics
        trace := tr ++ [⟨.component c hook, o.status, o.componentsInLock⟩] }
    obtain ⟨qa, qr, h2⟩ := applyRequests_locked env reqs o hlock
    obtain ⟨ics2, qa', qr', h3⟩ := ih
      { o with componentsToAddInNextFrame := qa, componentsToRemoveInNextFrame := qr }
      ics1 (tr ++ [⟨.component c hook, o.status, o.componentsInLock⟩]) hlock
    refine ⟨ics2, qa', qr', ?_⟩
    simp only [h2, World.withObj] at h1
    simp only [forEachComponent, external, World.observe, h1, Outcome.andThen, h3]
    simp [hlock]

theorem lockedCascade_onlyRequests_eq (env : Env) (h : Hooks) (hreq : h.OnlyRequests env)
    (hook : Hook) (w : World) :
    ∃ (ics' qa qr : List Ptr),
      lockedCascade h hook w =
        .ok { obj := { w.obj with componentsInLock := false
                                  componentsToAddInNextFrame := qa
                                  componentsToRemoveInNextFrame := qr }
              initializedComponents := ics'
              trace := w.trace ++ w.obj.components.map
                (fun c => ⟨.component c hook, w.obj.status, true⟩) } := by
  obtain ⟨ics', qa, qr, h1⟩ := forEachComponent_onlyRequests env h hreq hook
    w.obj.lockComponents.components w.obj.lockComponents w.initializedComponents w.trace rfl
  refine ⟨ics', qa, qr, ?_⟩
  unfold lockedCascade
  dsimp only
  rw [h1]
  rfl

theorem lockedCascade_onlyRequests (env : Env) (h : Hooks) (hreq : h.OnlyRequests env)
    (hook : Hook) (w : World) (hs : w.obj.status = .Initialized) :
    CascadedUnderLock w hook (lockedCascade h hook w) := by
  obtain ⟨ics', qa, qr, h1⟩ := lockedCascade_onlyRequests_eq env h hreq hook w
  exact ⟨_, h1, by simp [hs], rfl, rfl⟩

/-- C14: on an Initialized, active, unlocked object whose hooks act on it only
through `addComponent`/`removeComponent`, each of the nine dispatch functions
returns normally having called its hook, with the argument it was given, once
per element of the live sequence, in order, every call made with
`componentsInLock` true; on return `componentsInLock` is false and the live
sequence is the one on entry. Indeed nothing but the two pending queues differs
from the object on entry. -/
theorem dispatch_cascades_under_lock (env : Env) (h : Hooks) (hreq : h.OnlyRequests env)
    (delta : Delta) (info : CollisionInfo) (w : World)
    (hs : w.obj.status = .Initialized)
    (hact : w.obj.active = true)
    (hlock : w.obj.componentsInLock = false) :
    CascadedUnderLock w (.updatePhysics delta) ( GameObject.updatePhysics h delta w) ∧
      CascadedUnderLock w (.update delta) ( GameObject.update h delta w) ∧
      CascadedUnderLock w (.onCollisionEnter info) ( GameObject.onCollisionEnter h info w) ∧
      CascadedUnderLock w (.onCollisionStay info) ( GameObject.onCollisionStay h info w) ∧
      CascadedUnderLock w (.onCollisionExit info) ( GameObject.onCollisionExit h info w) ∧
      CascadedUnderLock w (.onTriggerEnter info) ( GameObject.onTriggerEnter h info w) ∧
      CascadedUnderLock w (.onTriggerStay info) ( GameObject.onTriggerStay h info w) ∧
      CascadedUnderLock w (.onTriggerExit info) ( GameObject.onTriggerExit h info w) ∧
      CascadedUnderLock w .render ( GameObject.render h w) ∧
      (∀ p ∈ dispatchTable h delta info, ∃ (w' : World) (qa qr : List Ptr),
        p.2 w = .ok w' ∧
        w'.obj = { w.obj with componentsToAddInNextFrame := qa
                              componentsToRemoveInNextFrame := qr }) := by
  have key : ∀ p ∈ dispatchTable h delta info, CascadedUnderLock w p.1 (p.2 w) := by
    intro p hp
    rw [dispatchTable_eq_lockedCascade h delta info w hs hact p hp]
    exact lockedCascade_onlyRequests env h hreq p.1 w hs
  refine ⟨key (.updatePhysics delta, GameObject.updatePhysics h delta) (by simp [dispatchTable]),
    key (.update delta, GameObject.update h delta) (by simp [dispatchTable]),
    key (.onCollisionEnter info, GameObject.onCollisionEnter h info) (by simp [dispatchTable]),
    key (.onCollisionStay info, GameObject.onCollisionStay h info) (by simp [dispatchTable]),
    key (.onCollisionExit info, GameObject.onCollisionExit h info) (by simp [dispatchTable]),
    key (.onTriggerEnter info, GameObject.onTriggerEnter h info) (by simp [dispatchTable]),
    key (.onTriggerStay info, GameObject.onTriggerStay h info) (by simp [dispatchTable]),
    key (.onTriggerExit info, GameObject.onTriggerExit h info) (by simp [dispatchTable]),
    key (.render, GameObject.render h) (by simp [dispatchTable]), ?_⟩
  intro p hp
  rw [dispatchTable_eq_lockedCascade h delta info w hs hact p hp]
  obtain ⟨ics', qa, qr, h1⟩ := lockedCascade_onlyRequests_eq env h hreq p.1 w
  refine ⟨_, qa, qr, h1, ?_⟩
  simp only [← hlock]

theorem andThen_ok_self (r : Outcome GameObject) : r.andThen Outcome.ok = r := by
  cases r <;> rfl

theorem requestingHooks_onlyRequests : requestingHooks.OnlyRequests sampleEnv := by
  intro call w
  have hnone : requestingHooks call w = .ok w → ∃ (reqs : List Request) (ics : List Ptr),
      requestingHooks call w = World.withObj { w with initializedComponents := ics }
        (applyRequests sampleEnv reqs w.obj) := by
    intro he
    exact ⟨[], w.initializedComponents, he⟩
  cases call with
  | component c hook =>
    cases hook with
    | update d =>
      by_cases hc : (c == 2 || c == 3) = true
      · refine ⟨[.add 4], w.initializedComponents, ?_⟩
        simp only [requestingHooks, hc, if_true, applyRequests, andThen_ok_self]
      · exact hnone (by simp only [requestingHooks, hc]; rfl)
    | _ => exact hnone rfl
  | _ => exact hnone rfl

/-- C14 at a concrete input: `update` on the initialized sample object with
hooks of which two ask for a new component while the cascade runs. -/
theorem dispatch_cascades_under_lock_witness :
    CascadedUnderLock (freshWorld readyObject) (.update 16)
        ( GameObject.update requestingHooks 16 (freshWorld readyObject)) ∧
    ( GameObject.update requestingHooks 16 (freshWorld readyObject)).state.obj =
      { readyObject with componentsToAddInNextFrame := [4, 4] } :=
  ⟨(dispatch_cascades_under_lock sampleEnv requestingHooks requestingHooks_onlyRequests
      16 0 (freshWorld readyObject) rfl rfl rfl).2.1, by decide⟩

/-! ## The lock when a hook fails, and under nesting -/

theorem forEachComponent_mayFail (h : Hooks) (hmf : h.MayFail) (hook : Hook) :
    ∀ (cs : List Ptr) (o : GameObject) (ics : List Ptr) (tr : List Observed),
      ∃ (ics' : List Ptr) (tr' : List Observed),
        forEachComponent h hook cs { obj := o, initializedComponents := ics, trace := tr } =
          .ok { obj := o, initializedComponents := ics', trace := tr' } ∨
        forEachComponent h hook cs { obj := o, initializedComponents := ics, trace := tr } =
          .fault .hookFailure { obj := o, initializedComponents := ics', trace := tr' } := by
  intro cs
  induction cs with
  | nil =>
    intro o ics tr
    exact ⟨ics, tr, Or.inl rfl⟩
  | cons c rest ih =>
    intro o ics tr
    obtain ⟨ics1, h1 | h1⟩ := hmf (.component c hook)
      { obj := o, initializedComponents := ics
        trace := tr ++ [⟨.component c hook, o.status, o.componentsInLock⟩] }
    · obtain ⟨ics2, tr2, h2 | h2⟩ := ih o ics1
        (tr ++ [⟨.component c hook, o.status, o.componentsInLock⟩])
      · exact ⟨ics2, tr2, Or.inl (by
          simp only [forEachComponent, external, World.observe, h1, Outcome.andThen, h2])⟩
      · exact ⟨ics2, tr2, Or.inr (by
          simp only [forEachComponent, external, World.observe, h1, Outcome.andThen, h2])⟩
    · exact ⟨ics1, tr ++ [⟨.component c hook, o.status, o.componentsInLock⟩], Or.inr (by
        simp only [forEachComponent, external, World.observe, h1, Outcome.andThen])⟩

theorem lockedCascade_mayFail (h : Hooks) (hmf : h.MayFail) (hook : Hook) (w : World) :
    LockClearedOnlyOnReturn (lockedCascade h hook w) := by
  obtain ⟨ics', tr', h1 | h1⟩ := forEachComponent_mayFail h hmf hook
    w.obj.lockComponents.components w.obj.lockComponents w.initializedComponents w.trace
  · have h2 : lockedCascade h hook w =
        .ok { obj := w.obj.lockComponents.unlockComponents
              initializedComponents := ics', trace := tr' } := by
      unfold lockedCascade
      dsimp only
      rw [h1]
      rfl
    rw [h2]
    exact ⟨fun w' e => by injection e with e; subst e; rfl,
      fun f w' e => Outcome.noConfusion e⟩
  · have h2 : lockedCascade h hook w =
        .fault .hookFailure { obj := w.obj.lockComponents
                              initializedComponents := ics', trace := tr' } := by
      unfold lockedCascade
      dsimp only
      rw [h1]
      rfl
    rw [h2]
    refine ⟨fun w' e => Outcome.noConfusion e, fun f w' e => ?_⟩
    injection e with e1 e2
    subst e1 e2
    exact ⟨rfl, rfl⟩

/-- C16, the claim as stated fails: when the `update` hook of the second
component fails, the failure leaves `update` with `componentsInLock` still
true. -/
theorem hook_failure_leaves_lock_set :
    GameObject.update failingHooks 16 (freshWorld readyObject) =
      .fault .hookFailure
        { obj := { readyObject with componentsInLock := true }
          initializedComponents := []
          trace := [⟨.component 1 (.update 16), .Initialized, true⟩,
                    ⟨.component 2 (.update 16), .Initialized, true⟩] } := by
  decide

/-- C16, amended: on an Initialized, active object, with hooks that do not call
back but may fail, each of the nine dispatch functions, and the cascade step of
`resolveLockedTasks`, clears `componentsInLock` when it returns normally; when a
hook failure leaves it, `componentsInLock` is still true. -/
theorem lock_cleared_only_on_return (h : Hooks) (hmf : h.MayFail)
    (delta : Delta) (info : CollisionInfo) (w : World)
    (hs : w.obj.status = .Initialized)
    (hact : w.obj.active = true) :
    LockClearedOnlyOnReturn ( GameObject.updatePhysics h delta w) ∧
      LockClearedOnlyOnReturn ( GameObject.update h delta w) ∧
      LockClearedOnlyOnReturn ( GameObject.onCollisionEnter h info w) ∧
      LockClearedOnlyOnReturn ( GameObject.onCollisionStay h info w) ∧
      LockClearedOnlyOnReturn ( GameObject.onCollisionExit h info w) ∧
      LockClearedOnlyOnReturn ( GameObject.onTriggerEnter h info w) ∧
      LockClearedOnlyOnReturn ( GameObject.onTriggerStay h info w) ∧
      LockClearedOnlyOnReturn ( GameObject.onTriggerExit h info w) ∧
      LockClearedOnlyOnReturn ( GameObject.render h w) ∧
      LockClearedOnlyOnReturn (lockedCascade h .resolveLockedTasks w) := by
  have key : ∀ p ∈ dispatchTable h delta info, LockClearedOnlyOnReturn (p.2 w) := by
    intro p hp
    rw [dispatchTable_eq_lockedCascade h delta info w hs hact p hp]
    exact lockedCascade_mayFail h hmf p.1 w
  exact ⟨key (.updatePhysics delta, GameObject.updatePhysics h delta) (by simp [dispatchTable]),
    key (.update delta, GameObject.update h delta) (by simp [dispatchTable]),
    key (.onCollisionEnter info, GameObject.onCollisionEnter h info) (by simp [dispatchTable]),
    key (.onCollisionStay info, GameObject.onCollisionStay h info) (by simp [dispatchTable]),
    key (.onCollisionExit info, GameObject.onCollisionExit h info) (by simp [dispatchTable]),
    key (.onTriggerEnter info, GameObject.onTriggerEnter h info) (by simp [dispatchTable]),
    key (.onTriggerStay info, GameObject.onTriggerStay h info) (by simp [dispatchTable]),
    key (.onTriggerExit info, GameObject.onTriggerExit h info) (by simp [dispatchTable]),
    key (.render, GameObject.render h) (by simp [dispatchTable]),
    lockedCascade_mayFail h hmf .resolveLockedTasks w⟩

theorem failingHooks_mayFail : failingHooks.MayFail := by
  intro call w
  refine ⟨w.initializedComponents, ?_⟩
  cases call with
  | component c hook =>
    cases hook with
    | update d =>
      by_cases hc : (c == 2) = true
      · exact Or.inr (by simp only [failingHooks, hc]; rfl)
      · exact Or.inl (by simp only [failingHooks, hc]; rfl)
    | _ => exact Or.inl rfl
  | _ => exact Or.inl rfl

/-- C16 amended at concrete inputs: `update` with a failing hook, `render` with
none failing. -/
theorem lock_cleared_only_on_return_witness :
    LockClearedOnlyOnReturn ( GameObject.update failingHooks 16 (freshWorld readyObject)) ∧
    LockClearedOnlyOnReturn ( GameObject.render failingHooks (freshWorld readyObject)) :=
  ⟨(lock_cleared_only_on_return failingHooks failingHooks_mayFail 16 0
      (freshWorld readyObject) rfl rfl).2.1,
   (lock_cleared_only_on_return failingHooks failingHooks_mayFail 16 0
      (freshWorld readyObject) rfl rfl).2.2.2.2.2.2.2.2.1⟩

/-- C20, the claim as stated fails: `update` entered with `componentsInLock`
already true returns with it false, and an `addComponent` made afterwards is
applied to the live sequence at once. -/
theorem nested_dispatch_drops_outer_lock :
    ( GameObject.update markingHooks 16
        (freshWorld { readyObject with componentsInLock := true })).state.obj =
      readyObject ∧
    readyObject.componentsInLock = false ∧
    readyObject.addComponent sampleEnv 4 =
      .ok { readyObject with components := [1, 2, 3, 4] } := by
  decide

/-- C20, amended: on an Initialized, active object with `componentsInLock`
already true, with hooks that act only through `addComponent`/`removeComponent`,
each dispatch function cascades under the lock and returns with
`componentsInLock` false and the live sequence as on entry; from then on a new
non-null, non-Transform component passed to `addComponent` is appended to the
live sequence at once, and a non-null component passed to `removeComponent` is
erased from it at once. -/
theorem nested_dispatch_clears_lock (env : Env) (h : Hooks) (hreq : h.OnlyRequests env)
    (delta : Delta) (info : CollisionInfo) (w : World)
    (hs : w.obj.status = .Initialized)
    (hact : w.obj.active = true)
    (hlock : w.obj.componentsInLock = true) :
    ∀ p ∈ dispatchTable h delta info, ∃ w' : World,
      p.2 w = .ok w' ∧
      CascadedUnderLock w p.1 (p.2 w) ∧
      w'.obj.componentsInLock = false ∧
      w'.obj.componentsInLock ≠ w.obj.componentsInLock ∧
      w'.obj.getAllComponents = w.obj.getAllComponents ∧
      (∀ c : Ptr, c ≠ NULL → c ∉ w'.obj.components → env.isTransform c = false →
        w'.obj.addComponent env c =
          .ok { w'.obj with components := w'.obj.components ++ [c] }) ∧
      (∀ c : Ptr, c ≠ NULL →
        w'.obj.removeComponent c =
          { w'.obj with components := vectorErase w'.obj.components c }) := by
  intro p hp
  rw [dispatchTable_eq_lockedCascade h delta info w hs hact p hp]
  obtain ⟨ics', qa, qr, h1⟩ := lockedCascade_onlyRequests_eq env h hreq p.1 w
  refine ⟨_, h1, lockedCascade_onlyRequests env h hreq p.1 w hs, rfl, ?_, rfl, ?_, ?_⟩
  · rw [hlock]
    exact Bool.noConfusion
  · intro c hnull hnin hnt
    simp only at hnin
    simp [GameObject.addComponent, GameObject.doAddComponent, GameObject.isReleasing,
      GameObject.isReleased, vectorContain, hs, hnull, hnin, hnt]
  · intro c hnull
    simp [GameObject.removeComponent, GameObject.doRemoveComponent, GameObject.isReleasing,
      GameObject.isReleased, hs, hnull]

/-- C20 amended at a concrete input: `update` on the locked, initialized sample
object. -/
theorem nested_dispatch_clears_lock_witness :
    ∃ w' : World,
      GameObject.update requestingHooks 16
          (freshWorld { readyObject with componentsInLock := true }) = .ok w' ∧
      w'.obj.componentsInLock = false ∧
      w'.obj.addComponent sampleEnv 5 =
        .ok { w'.obj with components := w'.obj.components ++ [5] } := by
  obtain ⟨w', h1, -, h2, -, h3, h4, -⟩ := nested_dispatch_clears_lock sampleEnv requestingHooks
    requestingHooks_onlyRequests 16 0 (freshWorld { readyObject with componentsInLock := true })
    rfl rfl rfl (.update 16, GameObject.update requestingHooks 16) (by simp [dispatchTable])
  refine ⟨w', h1, h2, h4 5 (by decide) ?_ rfl⟩
  have h3' : w'.obj.components = [1, 2, 3] := h3
  rw [h3']
  decide

/-! ## Duplicates in the live sequence -/

theorem vectorErase_nodup (vec : List Ptr) (val : Ptr) (h : vec.Nodup) :
    (vectorErase vec val).Nodup :=
  h.filter _

theorem addComponent_nodup (env : Env) (o : GameObject) (c : Ptr)
    (hnd : o.components.Nodup) : (o.addComponent env c).state.components.Nodup := by
  rcases addComponent_cases env o c with ⟨q, h1⟩ | h1 | ⟨hnin, -, h1⟩ | ⟨hnin, h1⟩
  · rw [h1]; exact hnd
  · rw [h1]; exact hnd
  · rw [h1]
    simp only [Outcome.state]
    refine List.nodup_cons.mpr ⟨?_, vectorErase_nodup _ _ hnd⟩
    intro hm
    exact hnin ((mem_vectorErase _ _ _).mp hm).1
  · rw [h1]
    simp only [Outcome.state]
    rw [List.nodup_append]
    refine ⟨hnd, List.nodup_singleton c, ?_⟩
    intro a ha hc
    rw [List.mem_singleton.mp hc] at ha
    exact hnin ha

theorem removeComponent_nodup (o : GameObject) (c : Ptr) (hnd : o.components.Nodup) :
    (o.removeComponent c).components.Nodup := by
  rcases removeComponent_cases o c with ⟨q, h1⟩ | h1
  · rw [h1]; exact hnd
  · rw [h1]; exact vectorErase_nodup _ _ hnd

theorem applyRequests_nodup (env : Env) :
    ∀ (reqs : List Request) (o : GameObject), o.components.Nodup →
      (applyRequests env reqs o).state.components.Nodup := by
  intro reqs
  induction reqs with
  | nil => intro o hnd; exact hnd
  | cons r rest ih =>
    intro o hnd
    cases r with
    | add c =>
      have h1 := addComponent_nodup env o c hnd
      simp only [applyRequests]
      cases hr : o.addComponent env c with
      | ok o' =>
        rw [hr] at h1
        exact ih o' h1
      | fault f o' =>
        rw [hr] at h1
        exact h1
    | remove c => exact ih _ (removeComponent_nodup o c hnd)

theorem andThen_nodup {r : Outcome World} {k : World → Outcome World}
    (h1 : r.state.obj.components.Nodup)
    (h2 : ∀ w : World, r = .ok w → (k w).state.obj.components.Nodup) :
    (r.andThen k).state.obj.components.Nodup := by
  cases r with
  | ok w => exact h2 w rfl
  | fault f w => exact h1

theorem withObj_state (w : World) (r : Outcome GameObject) :
    (w.withObj r).state.obj = r.state := by
  cases r <;> rfl

theorem external_nodup (env : Env) (h : Hooks) (hreq : h.OnlyRequests env)
    (call : ExternalCall) (w : World) (hnd : w.obj.components.Nodup) :
    (external h call w).state.obj.components.Nodup := by
  obtain ⟨reqs, ics, h1⟩ := hreq call { w with trace := w.trace ++ [w.observe call] }
  rw [external, h1, withObj_state]
  exact applyRequests_nodup env reqs w.obj hnd

theorem forEachComponent_nodup (env : Env) (h : Hooks) (hreq : h.OnlyRequests env)
    (hook : Hook) :
    ∀ (cs : List Ptr) (w : World), w.obj.components.Nodup →
      (forEachComponent h hook cs w).state.obj.components.Nodup := by
  intro cs
  induction cs with
  | nil => intro w hnd; exact hnd
  | cons c rest ih =>
    intro w hnd
    simp only [forEachComponent]
    refine andThen_nodup (external_nodup env h hreq _ w hnd) (fun w1 hw1 => ih w1 ?_)
    have := external_nodup env h hreq (.component c hook) w hnd
    rw [hw1] at this
    exact this

theorem lockedCascade_nodup (env : Env) (h : Hooks) (hreq : h.OnlyRequests env)
    (hook : Hook) (w : World) (hnd : w.obj.components.Nodup) :
    (lockedCascade h hook w).state.obj.components.Nodup := by
  unfold lockedCascade
  dsimp only
  have h1 := forEachComponent_nodup env h hreq hook w.obj.lockComponents.components
    { w with obj := w.obj.lockComponents } hnd
  refine andThen_nodup h1 (fun w2 hw2 => ?_)
  rw [hw2] at h1
  exact h1

theorem dispatchTable_nodup (env : Env) (h : Hooks) (hreq : h.OnlyRequests env)
    (delta : Delta) (info : CollisionInfo) (w : World) (hnd : w.obj.components.Nodup) :
    ∀ p ∈ dispatchTable h delta info, (p.2 w).state.obj.components.Nodup := by
  intro p hp
  simp only [dispatchTable, List.mem_cons, List.mem_singleton, List.not_mem_nil, or_false] at hp
  rcases hp with rfl | rfl | rfl | rfl | rfl | rfl | rfl | rfl | rfl <;>
    simp only [GameObject.updatePhysics, GameObject.update, GameObject.onCollisionEnter,
      GameObject.onCollisionStay, GameObject.onCollisionExit, GameObject.onTriggerEnter,
      GameObject.onTriggerStay, GameObject.onTriggerExit, GameObject.render] <;>
    split <;>
    first
    | exact hnd
    | exact lockedCascade_nodup env h hreq _ w hnd

theorem release_nodup (env : Env) (h : Hooks) (hreq : h.OnlyRequests env) (w : World)
    (hnd : w.obj.components.Nodup) :
    ( GameObject.release h w).state.obj.components.Nodup := by
  unfold GameObject.release
  split
  · rw [withObj_state]
    unfold GameObject.releaseInNextFrame
    split <;> exact hnd
  · split
    · exact hnd
    · dsimp only
      have h1 := forEachComponent_nodup env h hreq .release w.obj.setToReleasing.components
        { w with obj := w.obj.setToReleasing } hnd
      refine andThen_nodup h1 (fun w2 hw2 => ?_)
      rw [hw2] at h1
      have h2 := external_nodup env h hreq .messengerRelease w2 h1
      refine andThen_nodup h2 (fun w3 hw3 => ?_)
      rw [hw3] at h2
      have h3 : (if (w3.obj.parentScene != NULL) = true then
          external h (.sceneRemoveGameObject w3.obj.parentScene) w3
          else Outcome.ok w3).state.obj.components.Nodup := by
        split
        · exact external_nodup env h hreq _ w3 h2
        · exact h2
      refine andThen_nodup h3 (fun w4 hw4 => ?_)
      rw [hw4] at h3
      have h4 := external_nodup env h hreq .gameManagerDetach w4 h3
      refine andThen_nodup h4 (fun w5 hw5 => ?_)
      rw [hw5] at h4
      exact h4

/-- C18, the claim as stated fails: starting from the duplicate-free sequence
[T, A, B], one `update` in which two hooks each ask for the component at 4,
followed by `resolveLockedTasks`, leaves the live sequence [T, A, B, 4, 4]. -/
theorem queued_twice_is_added_twice :
    readyObject.getAllComponents = [1, 2, 3] ∧
    (( GameObject.update requestingHooks 16 (freshWorld readyObject)).andThen
        ( GameObject.resolveLockedTasks sampleEnv requestingHooks)).state.obj.getAllComponents =
      [1, 2, 3, 4, 4] := by
  decide

/-- C18, amended: from a duplicate-free live sequence, with hooks that act only
through `addComponent`/`removeComponent`, the live sequence is still
duplicate-free after `addComponent`, after `removeComponent` and after each of
the nine dispatch functions, in every state and however the call ends; and after
`resolveLockedTasks` on an Initialized object whose pending-add queue holds no
Transform and, appended to the live sequence, repeats no component. -/
theorem live_sequence_stays_duplicate_free (env : Env) (h : Hooks)
    (hreq : h.OnlyRequests env) (delta : Delta) (info : CollisionInfo) (w : World)
    (hnd : w.obj.getAllComponents.Nodup) :
    (∀ c : Ptr, (w.obj.addComponent env c).state.getAllComponents.Nodup) ∧
      (∀ c : Ptr, (w.obj.removeComponent c).getAllComponents.Nodup) ∧
      (∀ p ∈ dispatchTable h delta info, (p.2 w).state.obj.getAllComponents.Nodup) ∧
      (w.obj.status = .Initialized →
        (∀ c ∈ w.obj.componentsToAddInNextFrame, env.isTransform c = false) →
        (w.obj.getAllComponents ++ w.obj.componentsToAddInNextFrame).Nodup →
        ( GameObject.resolveLockedTasks env h w).state.obj.getAllComponents.Nodup) := by
  refine ⟨fun c => addComponent_nodup env w.obj c hnd,
    fun c => removeComponent_nodup w.obj c hnd,
    dispatchTable_nodup env h hreq delta info w hnd, ?_⟩
  intro hs hadds hq
  simp only [GameObject.getAllComponents] at hq ⊢
  unfold GameObject.resolveLockedTasks
  rw [if_neg (by simp [GameObject.isReleasing, GameObject.isReleased, hs]),
    if_neg (by simp [GameObject.isInitialized, hs])]
  unfold resolveLockedTasksBody
  split
  · have h1 := release_nodup env h hreq w hnd
    refine andThen_nodup h1 (fun w1 hw1 => ?_)
    rw [hw1] at h1
    exact h1
  · rw [updateAddAndRemove_nonTransform env w.obj hadds]
    have h0 : (w.obj.componentsToRemoveInNextFrame.foldl vectorErase
        (w.obj.components ++ w.obj.componentsToAddInNextFrame)).Nodup := by
      rw [foldl_vectorErase_eq_filter]
      exact hq.filter _
    refine andThen_nodup h0 (fun w1 hw1 => ?_)
    have hw1' : w1.obj.components.Nodup := by
      simp only [World.withObj] at hw1
      injection hw1 with hw1
      rw [← hw1]
      exact h0
    have h2 := external_nodup env h hreq .onResolveLockedTasks w1 hw1'
    refine andThen_nodup h2 (fun w2 hw2 => ?_)
    rw [hw2] at h2
    exact lockedCascade_nodup env h hreq .resolveLockedTasks w2 h2

/-- C18 amended at a concrete input: one `update` with requesting hooks, then a
`resolveLockedTasks` whose queue holds the new component once. -/
theorem live_sequence_stays_duplicate_free_witness :
    List.Nodup
      ( GameObject.update requestingHooks 16
        (freshWorld readyObject)).state.obj.getAllComponents ∧
    List.Nodup
      ( GameObject.resolveLockedTasks sampleEnv requestingHooks
        (freshWorld
          { readyObject with componentsToAddInNextFrame := [4] })).state.obj.getAllComponents :=
  ⟨(live_sequence_stays_duplicate_free sampleEnv requestingHooks requestingHooks_onlyRequests
      16 0 (freshWorld readyObject) (by decide)).2.2.1
      (.update 16, GameObject.update requestingHooks 16) (by simp [dispatchTable]),
   (live_sequence_stays_duplicate_free sampleEnv requestingHooks requestingHooks_onlyRequests
      16 0 (freshWorld { readyObject with componentsToAddInNextFrame := [4] })
      (by decide)).2.2.2 rfl (by decide) (by decide)⟩

/-! ## The cascade of initialize, and lazy initialization -/

/-- C19, the code at the failing input: `initialize()` calls its hooks with
status Initializing and `componentsInLock` as it found it, here false; in that
state `addComponent` of a new component appends it to the live sequence at
once, and `removeComponent` erases from it at once, while the loop of
`initialize()` is iterating that sequence. -/
theorem initialize_hooks_can_change_live_sequence :
    ( GameObject.initialize markingHooks (freshWorld sampleObject)).state.trace.map
        (fun ob => (ob.status, ob.componentsInLock)) =
      [(.Initializing, false), (.Initializing, false), (.Initializing, false)] ∧
    ({ sampleObject with status := .Initializing } : GameObject).addComponent sampleEnv 4 =
      .ok { sampleObject with status := .Initializing, components := [1, 2, 3, 4] } ∧
    ({ sampleObject with status := .Initializing } : GameObject).removeComponent 3 =
      { sampleObject with status := .Initializing, components := [1, 2] } := by
  decide

theorem initializeComponents_passive_any (h : Hooks) (hp : h.Passive) :
    ∀ (cs : List Ptr) (o : GameObject) (ics : List Ptr) (tr : List Observed),
      ∃ (ics' : List Ptr) (calls : List Observed),
        initializeComponents h cs { obj := o, initializedComponents := ics, trace := tr } =
          .ok { obj := o, initializedComponents := ics', trace := tr ++ calls } ∧
        (∀ ob ∈ calls, ∃ c ∈ cs,
          ob = ⟨.component c Hook.initializeHook, o.status, o.componentsInLock⟩) ∧
        (∀ c ∈ cs, ics.contains c = false →
          (⟨.component c Hook.initializeHook, o.status, o.componentsInLock⟩ : Observed) ∈
            calls) := by
  intro cs
  induction cs with
  | nil =>
    intro o ics tr
    exact ⟨ics, [], by simp [initializeComponents], by simp, by simp⟩
  | cons c rest ih =>
    intro o ics tr
    cases hf : ics.contains c with
    | true =>
      obtain ⟨ics', calls, h1, h2, h3⟩ := ih o ics tr
      refine ⟨ics', calls, ?_, ?_, ?_⟩
      · simp only [initializeComponents, World.componentIsInitialized, hf]
        exact h1
      · intro ob hob
        obtain ⟨x, hx, e⟩ := h2 ob hob
        exact ⟨x, List.mem_cons_of_mem _ hx, e⟩
      · intro x hx hxf
        rcases List.mem_cons.mp hx with rfl | hx
        · rw [hf] at hxf
          exact Bool.noConfusion hxf
        · exact h3 x hx hxf
    | false =>
      obtain ⟨ics1, h1, hkeep⟩ := external_passive h hp (.component c Hook.initializeHook)
        { obj := o, initializedComponents := ics, trace := tr }
      obtain ⟨ics', calls, h2, h3, h4⟩ := ih o ics1
        (tr ++ [⟨.component c Hook.initializeHook, o.status, o.componentsInLock⟩])
      refine ⟨ics', ⟨.component c Hook.initializeHook, o.status, o.componentsInLock⟩ :: calls,
        ?_, ?_, ?_⟩
      · simp only [World.observe] at h1
        simp only [initializeComponents, World.componentIsInitialized, hf, h1,
          Outcome.andThen, h2]
        simp
      · intro ob hob
        rcases List.mem_cons.mp hob with rfl | hob
        · exact ⟨c, List.mem_cons_self _ _, rfl⟩
        · obtain ⟨x, hx, e⟩ := h3 ob hob
          exact ⟨x, List.mem_cons_of_mem _ hx, e⟩
      · intro x hx hxf
        by_cases hxc : x = c
        · subst hxc
          exact List.mem_cons_self _ _
        · have hx' : x ∈ rest := by
            rcases List.mem_cons.mp hx with e | hx
            · exact absurd e hxc
            · exact hx
          have hrecv : (ExternalCall.component c Hook.initializeHook).receiver ≠ some x := by
            intro e
            simp only [ExternalCall.receiver, Option.some.injEq] at e
            exact hxc e.symm
          have hsame : ics1.contains x = false := by
            rw [hkeep x hrecv]
            exact hxf
          exact List.mem_cons_of_mem _ (h4 x hx' hsame)

/-- C15: on an Uninitialized object, `resolveLockedTasks()` with
`selfInitialize` false returns the world as it was (status, sequence, queues
and trace unchanged); with `selfInitialize` true, no release pending, no
Transform waiting in the add queue and hooks that do not call back, it returns
with the object Initialized and active, having called the `initialize` hook of
every component that was not initialized (and only `initialize` hooks of the
object's components) before the extension hook and before any component's
`resolveLockedTasks` hook. -/
theorem lazy_initialization (env : Env) (h : Hooks) (w : World)
    (hU : w.obj.status = .Uninitialized) :
    (w.obj.selfInitialize = false → GameObject.resolveLockedTasks env h w = .ok w) ∧
    (w.obj.selfInitialize = true → h.Passive → w.obj.toReleaseInNextFrame = false →
      (∀ c ∈ w.obj.componentsToAddInNextFrame, env.isTransform c = false) →
      ∃ (ics : List Ptr) (inits : List Observed) (live : List Ptr),
        GameObject.resolveLockedTasks env h w =
          .ok { obj := { w.obj with status := .Initialized, active := true
                                    componentsInLock := false
                                    components := live
                                    componentsToAddInNextFrame := []
                                    componentsToRemoveInNextFrame := [] }
                initializedComponents := ics
                trace := w.trace ++ inits ++
                  [⟨.onResolveLockedTasks, .Initialized, w.obj.componentsInLock⟩] ++
                  live.map
                    (fun c => ⟨.component c .resolveLockedTasks, .Initialized, true⟩) } ∧
        (∀ ob ∈ inits, ∃ c ∈ w.obj.components,
          ob = ⟨.component c Hook.initializeHook, .Initializing, w.obj.componentsInLock⟩) ∧
        (∀ c ∈ w.obj.components, w.componentIsInitialized c = false →
          (⟨.component c Hook.initializeHook, .Initializing, w.obj.componentsInLock⟩ :
            Observed) ∈ inits) ∧
        live = w.obj.componentsToRemoveInNextFrame.foldl vectorErase
          (w.obj.components ++ w.obj.componentsToAddInNextFrame)) := by
  constructor
  · intro hself
    simp [GameObject.resolveLockedTasks, GameObject.isReleasing, GameObject.isReleased,
      GameObject.isInitialized, GameObject.isSelfInitialize, hU, hself]
  · intro hself hp hrel hadds
    obtain ⟨⟨id, name, layer, scene, active, selfInit, toRel, lock, status, comps, transform,
      toAdd, toRemove⟩, ics, tr⟩ := w
    simp only at hU hself hrel hadds
    subst hU hself hrel
    obtain ⟨ics1, inits, h1, h2, h3⟩ := initializeComponents_passive_any h hp comps
      { id := id, name := name, layer := layer, parentScene := scene, active := active,
        selfInitialize := true, toReleaseInNextFrame := false, componentsInLock := lock,
        status := .Initializing, components := comps, transform := transform,
        componentsToAddInNextFrame := toAdd, componentsToRemoveInNextFrame := toRemove }
      ics tr
    have hupd := updateAddAndRemove_nonTransform env
      { id := id, name := name, layer := layer, parentScene := scene, active := true,
        selfInitialize := true, toReleaseInNextFrame := false, componentsInLock := lock,
        status := .Initialized, components := comps, transform := transform,
        componentsToAddInNextFrame := toAdd, componentsToRemoveInNextFrame := toRemove } hadds
    have key : Yields ( GameObject.resolveLockedTasks env h
        { obj := { id := id, name := name, layer := layer, parentScene := scene,
                   active := active, selfInitialize := true, toReleaseInNextFrame := false,
                   componentsInLock := lock, status := .Uninitialized, components := comps,
                   transform := transform, componentsToAddInNextFrame := toAdd,
                   componentsToRemoveInNextFrame := toRemove }
          initializedComponents := ics, trace := tr })
        { id := id, name := name, layer := layer, parentScene := scene, active := true,
          selfInitialize := true, toReleaseInNextFrame := false, componentsInLock := false,
          status := .Initialized
          components := toRemove.foldl vectorErase (comps ++ toAdd), transform := transform,
          componentsToAddInNextFrame := [], componentsToRemoveInNextFrame := [] }
        (tr ++ inits ++ [⟨.onResolveLockedTasks, .Initialized, lock⟩] ++
          (toRemove.foldl vectorErase (comps ++ toAdd)).map
            (fun c => ⟨.component c .resolveLockedTasks, .Initialized, true⟩)) := by
      unfold GameObject.resolveLockedTasks
      rw [if_neg (by simp [GameObject.isReleasing, GameObject.isReleased]),
        if_pos (by simp [GameObject.isInitialized]),
        if_pos (by simp [GameObject.isSelfInitialize])]
      unfold GameObject.initialize
      rw [if_neg (by simp [GameObject.isInitialized, GameObject.isInitializing])]
      dsimp only [GameObject.setToInitializing]
      rw [h1]
      dsimp only [Outcome.andThen, GameObject.setToInitialized, GameObject.setActive]
      unfold resolveLockedTasksBody
      rw [if_neg (by simp)]
      dsimp only
      rw [hupd]
      dsimp only [World.withObj]
      refine Yields.andThen (Yields.ok _ _ _) (fun ics2 => ?_)
      dsimp only
      refine Yields.andThen (yields_external h hp .onResolveLockedTasks _ _ _) (fun ics3 => ?_)
      exact yields_lockedCascade h hp .resolveLockedTasks _ _ _
    obtain ⟨ics', hk⟩ := key
    exact ⟨ics', inits, _, hk, h2, h3, rfl⟩

/-- C15 at concrete inputs: the sample object with `selfInitialize` off, and
with it on. -/
theorem lazy_initialization_witness :
    GameObject.resolveLockedTasks sampleEnv markingHooks
        (freshWorld { sampleObject with selfInitialize := false }) =
      .ok (freshWorld { sampleObject with selfInitialize := false }) ∧
    (∃ (ics : List Ptr) (inits : List Observed),
      GameObject.resolveLockedTasks sampleEnv markingHooks (freshWorld sampleObject) =
        .ok { obj := { sampleObject with status := .Initialized, active := true }
              initializedComponents := ics
              trace := inits ++ [⟨.onResolveLockedTasks, .Initialized, false⟩] ++
                [⟨.component 1 .resolveLockedTasks, .Initialized, true⟩,
                 ⟨.component 2 .resolveLockedTasks, .Initialized, true⟩,
                 ⟨.component 3 .resolveLockedTasks, .Initialized, true⟩] } ∧
      (⟨.component 2 Hook.initializeHook, .Initializing, false⟩ : Observed) ∈ inits) := by
  refine ⟨(lazy_initialization sampleEnv markingHooks
    (freshWorld { sampleObject with selfInitialize := false }) rfl).1 rfl, ?_⟩
  obtain ⟨ics, inits, live, h1, -, h3, h4⟩ := (lazy_initialization sampleEnv markingHooks
    (freshWorld sampleObject) rfl).2 rfl markingHooks_passive rfl (by decide)
  refine ⟨ics, inits, ?_, h3 2 (by decide) rfl⟩
  rw [h1, h4]
  rfl

end Aladdin
